import Mathlib

/-!
# Account flow of `services/user_service.go`

A shallow embedding of `UserService` (sign-in, sign-up, binding of a Github
identity, sign-in by Github) and of the collaborators it calls.

Go strings are taken to be valid UTF-8 and are embedded as `String`; `int64`
values are embedded as `Int` (no arithmetic is performed on them by the code
embedded here, so no overflow can occur).  A Go result pair `(*User, error)`
is embedded as `Option User × Option Error`, so that the four combinations of
nil and non-nil stay expressible.  Stateful calls pass a `World` explicitly.
-/

namespace services

/-! ## Records -/

/-- Modelled from the spec: the status enum of a User (`model.UserStatusOk`
and its sibling are declared in the `model` package). -/
inductive UserStatus where
  | ok
  | disabled
  deriving DecidableEq, Repr

/-- Modelled from the spec: the constant `model.UserStatusOk`. -/
def UserStatusOk : UserStatus := UserStatus.ok

/-- Modelled from the spec: the record `model.User` (section 3); the Go zero
value of `Id` is `0` and of `Password` is the empty string. -/
structure User where
  id : Int
  username : String
  email : String
  nickname : String
  password : String
  avatar : String
  status : UserStatus
  createTime : Int
  updateTime : Int
  deriving DecidableEq, Repr

/-- Modelled from the spec: the record `model.GithubUser`, the external identity
of section 3, with the fields the service reads or writes. -/
structure GithubUser where
  id : Int
  userId : Int
  login : String
  name : String
  email : String
  avatarUrl : String
  updateTime : Int
  deriving DecidableEq, Repr

/-- An `error` value: one built by the service with `errors.New`, or one
surfaced by the persistence layer. -/
inductive Error where
  | new (text : String)
  | repo (cause : String)
  deriving DecidableEq, Repr

/-- The `*simple.CodeError` results of `SignInByGithub`: `simple.NewError(code, text)`
and `simple.NewError2(err)`. -/
inductive CodeError where
  | NewError (code : Int) (text : String)
  | NewError2 (err : Error)
  deriving DecidableEq, Repr

/-! ## The relational store, the clock and the cache -/

/-- Modelled from the spec: the relational store behind `repositories` (section 6),
as the rows of the two tables. -/
structure Store where
  users : List User
  githubUsers : List GithubUser
  deriving DecidableEq, Repr

/-- Everything a call can read or change: the database, the number of clock
readings taken so far, and the user ids handed to `cache.UserCache.Invalidate`
(most recent first). -/
structure World where
  db : Store
  ticks : Nat
  invalidated : List Int
  deriving DecidableEq, Repr

/-- The collaborators that are reached through fixed contracts (section 6) and
constants of the absent packages:
`validate.IsEmail`, `simple.EncodePassword`, `simple.ValidatePassword`, the
readings of the clock behind `simple.NowTimestamp`, `utils.ErrorCodeUserNameExists`,
and, for every write of the persistence layer, whether it fails in a given
store on given arguments (and with which cause). -/
structure Env where
  IsEmail : String → Bool
  EncodePassword : String → String
  ValidatePassword : String → String → Bool
  clock : Nat → Int
  ErrorCodeUserNameExists : Int
  createFault : Store → User → Option String
  githubUpdateFault : Store → GithubUser → Option String
  githubUpdateColumnFault : Store → Int → String → Int → Option String

/-! ## Library functions -/

namespace unicode

/-- Go `unicode.IsSpace`: the code points with the Unicode White_Space property. -/
def IsSpace (c : Char) : Bool :=
  let n := c.toNat
  (9 ≤ n && n ≤ 13) || n == 32 || n == 133 || n == 160 || n == 5760 ||
  (8192 ≤ n && n ≤ 8202) || n == 8232 || n == 8233 || n == 8239 || n == 8287 ||
  n == 12288

end unicode

namespace strings

/-- Go `strings.TrimSpace`: the string without its leading and trailing white space. -/
def TrimSpace (s : String) : String :=
  String.mk ((s.data.dropWhile unicode.IsSpace).reverse.dropWhile unicode.IsSpace).reverse

end strings

namespace simple

/-- The helper `simple.RuneLen`: the number of runes of the string. -/
def RuneLen (s : String) : Nat := s.length

/-- The helper `simple.NowTimestamp`: one reading of the clock. -/
def NowTimestamp (env : Env) (w : World) : Int × World :=
  (env.clock w.ticks, { w with ticks := w.ticks + 1 })

/-- Modelled from the spec: `simple.Tx`, the TransactionRunner of section 6; the
closure runs on the store, and any error it returns restores the store. -/
def Tx {α : Type} (db : Store) (txFunc : Store → Store × α × Option Error) :
    Store × α × Option Error :=
  match txFunc db with
  | (tx, a, none) => (tx, a, none)
  | (_, a, some err) => (db, a, some err)

end simple

/-- Go `len(s) == 0` on a string. -/
def lenIsZero (s : String) : Bool := s.data.isEmpty

/-! ## Repositories -/

/-- The largest id among the rows, `0` for an empty table. -/
def maxId : List User → Int
  | [] => 0
  | u :: us => max u.id (maxId us)

namespace UserRepository

/-- Modelled from the spec: `UserRepository.Get`, GetById of the UserStore. -/
def Get (db : Store) (id : Int) : Option User :=
  db.users.find? (fun u => u.id == id)

/-- Modelled from the spec: `UserRepository.GetByUsername`, an exact match. -/
def GetByUsername (db : Store) (username : String) : Option User :=
  db.users.find? (fun u => u.username == username)

/-- Modelled from the spec: `UserRepository.GetByEmail`, an exact match. -/
def GetByEmail (db : Store) (email : String) : Option User :=
  db.users.find? (fun u => u.email == email)

/-- Modelled from the spec: `UserRepository.Create`, Create of the UserStore. A
failing write leaves the table as it was; a successful one appends the record
under a newly assigned id (one above every id in the table) and hands the
record with that id back, as the Go call does through its pointer argument. -/
def Create (env : Env) (db : Store) (t : User) : Store × User × Option Error :=
  match env.createFault db t with
  | some cause => (db, t, some (Error.repo cause))
  | none =>
    let t1 : User := { t with id := maxId db.users + 1 }
    ({ db with users := db.users ++ [t1] }, t1, none)

end UserRepository

namespace GithubUserRepository

/-- Modelled from the spec: `GithubUserRepository.Get`, the lookup of an external
identity by its id. -/
def Get (db : Store) (id : Int) : Option GithubUser :=
  db.githubUsers.find? (fun g => g.id == id)

/-- Modelled from the spec: `GithubUserRepository.Update`, which writes every
column of the row that has the id of the record. -/
def Update (env : Env) (db : Store) (t : GithubUser) : Store × Option Error :=
  match env.githubUpdateFault db t with
  | some cause => (db, some (Error.repo cause))
  | none =>
    ({ db with githubUsers := db.githubUsers.map (fun g => if g.id = t.id then t else g) }, none)

/-- The write of one integer column of an identity row. -/
def setColumn (g : GithubUser) (name : String) (value : Int) : GithubUser :=
  if name = "user_id" then { g with userId := value }
  else if name = "update_time" then { g with updateTime := value }
  else g

/-- Modelled from the spec: `GithubUserRepository.UpdateColumn`, the write of one
column of the row that has the given id. -/
def UpdateColumn (env : Env) (db : Store) (id : Int) (name : String) (value : Int) :
    Store × Option Error :=
  match env.githubUpdateColumnFault db id name value with
  | some cause => (db, some (Error.repo cause))
  | none =>
    ({ db with githubUsers :=
        db.githubUsers.map (fun g => if g.id = id then setColumn g name value else g) }, none)

end GithubUserRepository

/-! ## UserService -/

namespace UserService

/-- The method `UserService.Get`. -/
def Get (w : World) (id : Int) : Option User := UserRepository.Get w.db id

/-- The method `UserService.GetByEmail`. -/
def GetByEmail (w : World) (email : String) : Option User :=
  UserRepository.GetByEmail w.db email

/-- The method `UserService.GetByUsername`. -/
def GetByUsername (w : World) (username : String) : Option User :=
  UserRepository.GetByUsername w.db username

/-- The method `UserService.Create`: the record with its assigned id, the error,
and the world after the write. -/
def Create (env : Env) (w : World) (t : User) : User × Option Error × World :=
  let r := UserRepository.Create env w.db t
  (r.2.1, r.2.2, { w with db := r.1 })

/-- The method `UserService.SignIn`. -/
def SignIn (env : Env) (w : World) (username password : String) :
    Option User × Option Error × World :=
  if lenIsZero username then (none, some (Error.new "用户名/邮箱不能为空"), w)
  else if lenIsZero password then (none, some (Error.new "密码不能为空"), w)
  else
    let user := if env.IsEmail username then GetByEmail w username else GetByUsername w username
    match user with
    | none => (none, some (Error.new "用户不存在"), w)
    | some user =>
      if !env.ValidatePassword user.password password then
        (none, some (Error.new "密码错误"), w)
      else (some user, none, w)

/-- The method `UserService.SignUp`. -/
def SignUp (env : Env) (w : World)
    (username email password rePassword nickname avatar : String) :
    Option User × Option Error × World :=
  let username := strings.TrimSpace username
  let email := strings.TrimSpace email
  if lenIsZero username then (none, some (Error.new "请输入用户名"), w)
  else if simple.RuneLen username < 5 then
    (none, some (Error.new "用户名长度不能少于5个字符"), w)
  else if !env.IsEmail email then (none, some (Error.new "请输入合法的邮箱"), w)
  else if lenIsZero password then (none, some (Error.new "请输入密码"), w)
  else if simple.RuneLen password < 6 then (none, some (Error.new "密码过于简单"), w)
  else if lenIsZero nickname then (none, some (Error.new "昵称不能为空"), w)
  else if password ≠ rePassword then (none, some (Error.new "两次输入密码不匹配"), w)
  else if (GetByUsername w username).isSome then
    (none, some (Error.new ("用户名：" ++ username ++ " 已被占用")), w)
  else if (GetByEmail w email).isSome then
    (none, some (Error.new ("邮箱：" ++ email ++ " 已被占用")), w)
  else
    let password := env.EncodePassword password
    let t1 := simple.NowTimestamp env w
    let t2 := simple.NowTimestamp env t1.2
    let user : User :=
      { id := 0, username := username, email := email, nickname := nickname,
        password := password, avatar := avatar, status := UserStatusOk,
        createTime := t1.1, updateTime := t2.1 }
    let r := Create env t2.2 user
    match r.2.1 with
    | some err => (none, some err, r.2.2)
    | none => (some r.1, none, r.2.2)

/-- The method `UserService.Bind`. -/
def Bind (env : Env) (w : World) (githubId : Int)
    (bindType username email password rePassword nickname : String) :
    Option User × Option Error × World :=
  match GithubUserRepository.Get w.db githubId with
  | none => (none, some (Error.new "Github账号未找到"), w)
  | some githubUser =>
    if githubUser.userId > 0 then (none, some (Error.new "Github账号已绑定了用户"), w)
    else
      let r :=
        if bindType = "login" then SignIn env w username password
        else SignUp env w username email password rePassword nickname githubUser.avatarUrl
      match r with
      | (user, some err, w1) => (user, some err, w1)
      | (none, none, w1) => (none, some (Error.new "未知异常"), w1)
      | (some user, none, w1) =>
        let t := simple.NowTimestamp env w1
        let githubUser1 : GithubUser :=
          { githubUser with userId := user.id, updateTime := t.1 }
        let u := GithubUserRepository.Update env t.2.db githubUser1
        (some user, u.2, { t.2 with db := u.1 })

/-- The closure `SignInByGithub` hands to `simple.Tx`: create the user, then
write its id into the `user_id` column of the identity. -/
def createAndLink (env : Env) (githubUser : GithubUser) (user : User) (tx : Store) :
    Store × User × Option Error :=
  match UserRepository.Create env tx user with
  | (tx1, user1, some err) => (tx1, user1, some err)
  | (tx1, user1, none) =>
    match GithubUserRepository.UpdateColumn env tx1 githubUser.id "user_id" user1.id with
    | (tx2, some err) => (tx2, user1, some err)
    | (tx2, none) => (tx2, user1, none)

/-- The record `SignInByGithub` builds from the identity, with two readings of
the clock. -/
def githubNewUser (githubUser : GithubUser) (createTime updateTime : Int) : User :=
  { id := 0, username := githubUser.login, email := githubUser.email,
    nickname := githubUser.name, password := "", avatar := githubUser.avatarUrl,
    status := UserStatusOk, createTime := createTime, updateTime := updateTime }

/-- The method `UserService.SignInByGithub`. -/
def SignInByGithub (env : Env) (w : World) (githubUser : GithubUser) :
    Option User × Option CodeError × World :=
  match Get w githubUser.userId with
  | some user => (some user, none, w)
  | none =>
    if (GetByUsername w githubUser.login).isNone then
      let t1 := simple.NowTimestamp env w
      let t2 := simple.NowTimestamp env t1.2
      let user := githubNewUser githubUser t1.1 t2.1
      let r := simple.Tx t2.2.db (createAndLink env githubUser user)
      match r.2.2 with
      | some err => (none, some (CodeError.NewError2 err), { t2.2 with db := r.1 })
      | none => (some r.2.1, none, { t2.2 with db := r.1 })
    else
      (none, some (CodeError.NewError env.ErrorCodeUserNameExists "用户名已存在"), w)

end UserService

/-! ## Concrete collaborators, for evaluating the service on examples -/

/-- A password hasher for examples: the hash is the plaintext behind a marker. -/
def sampleHash (p : String) : String := "bcrypt:" ++ p

/-- An email validator for examples: one `@`, with something on both sides. -/
def sampleIsEmail (s : String) : Bool :=
  match s.data.span (fun c => c != '@') with
  | (l, _ :: d) => !l.isEmpty && !d.isEmpty && !d.contains '@'
  | (_, []) => false

/-- Collaborators whose store writes never fail. -/
def sampleEnv : Env where
  IsEmail := sampleIsEmail
  EncodePassword := sampleHash
  ValidatePassword := fun encoded input => encoded == sampleHash input
  clock := fun n => 1700000000 + n
  ErrorCodeUserNameExists := 10
  createFault := fun _ _ => none
  githubUpdateFault := fun _ _ => none
  githubUpdateColumnFault := fun _ _ _ _ => none

/-- A world with no rows. -/
def emptyWorld : World := { db := { users := [], githubUsers := [] }, ticks := 0, invalidated := [] }

/-! ## The order of the sign-up checks, as the specification lists it -/

namespace SignUpSpec

/-- The nine checks of section 4.1 in their listed order, each as the pair of
"this check fails" and the error the service reports for it. The username and
the email are the trimmed ones. -/
def checks (env : Env) (w : World) (username email password rePassword nickname : String) :
    List (Bool × Error) :=
  let u := strings.TrimSpace username
  let e := strings.TrimSpace email
  [ (decide (u = ""), Error.new "请输入用户名"),
    (decide (u.length < 5), Error.new "用户名长度不能少于5个字符"),
    (!env.IsEmail e, Error.new "请输入合法的邮箱"),
    (decide (password = ""), Error.new "请输入密码"),
    (decide (password.length < 6), Error.new "密码过于简单"),
    (decide (nickname = ""), Error.new "昵称不能为空"),
    (decide (password ≠ rePassword), Error.new "两次输入密码不匹配"),
    ((UserRepository.GetByUsername w.db u).isSome, Error.new ("用户名：" ++ u ++ " 已被占用")),
    ((UserRepository.GetByEmail w.db e).isSome, Error.new ("邮箱：" ++ e ++ " 已被占用")) ]

/-- The error of the earliest failing check, if any check fails. -/
def firstFailure (env : Env) (w : World)
    (username email password rePassword nickname : String) : Option Error :=
  ((checks env w username email password rePassword nickname).find? (fun c => c.1)).map
    (fun c => c.2)

end SignUpSpec

/-! ## Records, predicates and sample data used in the statements -/

/-- The record `SignUp` builds once every check has passed, before the store
assigns its id: trimmed username and email, hashed password, two clock readings. -/
def signUpRecord (env : Env) (w : World) (username email password nickname avatar : String) :
    User :=
  { id := 0, username := strings.TrimSpace username, email := strings.TrimSpace email,
    nickname := nickname, password := env.EncodePassword password, avatar := avatar,
    status := UserStatusOk, createTime := env.clock w.ticks,
    updateTime := env.clock (w.ticks + 1) }

/-- The lookup `SignIn` performs: by email when the identifier is a valid email
address, by username otherwise. -/
def signInLookup (env : Env) (w : World) (username : String) : Option User :=
  if env.IsEmail username then UserRepository.GetByEmail w.db username
  else UserRepository.GetByUsername w.db username

/-- A store whose `Create` always fails. -/
def brokenCreateEnv : Env := { sampleEnv with createFault := fun _ _ => some "connection lost" }

/-- The user created by the registration of the name `x@y.com` on an empty store. -/
def mailNamedUser : User :=
  ⟨1, "x@y.com", "a@b.com", "Nick", "bcrypt:secret1", "", UserStatusOk, 1700000000, 1700000001⟩

/-- The user created by the registration of `alice` on an empty store. -/
def aliceUser : User :=
  ⟨1, "alice", "a@b.com", "Nick", "bcrypt:secret1", "", UserStatusOk, 1700000000, 1700000001⟩

/-- The world after one registration on an empty store. -/
def worldWith (u : User) : World := ⟨⟨[u], []⟩, 2, []⟩

/-- The user `SignInByGithub` registers for an identity: the record built from
the identity with the next two clock readings, under the id the store assigns. -/
def githubCreated (env : Env) (w : World) (githubUser : GithubUser) : User :=
  { UserService.githubNewUser githubUser (env.clock w.ticks) (env.clock (w.ticks + 1)) with
    id := maxId w.db.users + 1 }

/-- The identity table after the `user_id` column of the rows with the given id
has been set. -/
def linkRows (rows : List GithubUser) (id userId : Int) : List GithubUser :=
  rows.map (fun g => if g.id = id then { g with userId := userId } else g)

/-- An identity that was linked to user 7. -/
def bobIdentity : GithubUser := ⟨10, 7, "bob", "Bob", "bob@example.com", "pic", 1600000000⟩

/-- A store in which the identity `bobIdentity` is linked to user 7 and user 7
has been deleted; the one user left is alice, with id 1. -/
def danglingWorld : World := ⟨⟨[aliceUser], [bobIdentity]⟩, 0, []⟩

/-- The identity of bob, linked to alice (user 1). -/
def bobLinkedToAlice : GithubUser := ⟨10, 1, "bob", "Bob", "bob@example.com", "pic", 1600000000⟩

/-- An unlinked identity whose email is the email of the user alice. -/
def bobWithAliceEmail : GithubUser := ⟨10, 0, "bob", "Bob", "a@b.com", "pic", 1600000000⟩

/-- Usernames are unique across the user rows. -/
def UniqueUsernames (db : Store) : Prop := (db.users.map (fun u => u.username)).Nodup

/-- Emails are unique across the user rows. -/
def UniqueEmails (db : Store) : Prop := (db.users.map (fun u => u.email)).Nodup

instance (db : Store) : Decidable (UniqueUsernames db) := by
  unfold UniqueUsernames; infer_instance

instance (db : Store) : Decidable (UniqueEmails db) := by
  unfold UniqueEmails; infer_instance

/-- Modelled from the spec: the invariant of the user table (section 3). The id
of a user is assigned at creation and `0` is the blank id, the one that stands
for "unlinked" in an identity; so every stored user row has an id of at least 1.
The store's `Create` assigns only such ids, and `SignUp`, `Bind` and
`SignInByGithub` keep the invariant. -/
def IdsAssigned (db : Store) : Prop := ∀ u ∈ db.users, 1 ≤ u.id

instance (db : Store) : Decidable (IdsAssigned db) := by
  unfold IdsAssigned; infer_instance

/-- An unlinked identity with the login `bob`. -/
def bobUnlinked : GithubUser := ⟨10, 0, "bob", "Bob", "bob@example.com", "pic", 1600000000⟩

/-- A store that holds alice and the unlinked identity of bob. -/
def aliceAndBobWorld : World := ⟨⟨[aliceUser], [bobUnlinked]⟩, 0, []⟩

/-- An unlinked identity whose login is the username of alice. -/
def aliceLogin : GithubUser := ⟨11, 0, "alice", "Alice", "al@example.com", "pic", 1600000000⟩

/-- A store whose write of an identity column always fails. -/
def brokenLinkEnv : Env :=
  { sampleEnv with githubUpdateColumnFault := fun _ _ _ _ => some "deadlock" }

/-! ## The delegating writes and the cache -/

/-- A value of a loosely typed column map (`interface{}` in the source). -/
inductive Value where
  | int (i : Int)
  | str (s : String)
  deriving DecidableEq, Repr

/-- The writes of `repositories.UserRepository` that the service only delegates
to, taken as parameters: each may change the store in any way and may return
any error. `Update` receives the record through a pointer, so it also hands
back the record as it leaves it (the repository may assign its id). -/
structure UserWrites where
  Update : Store → User → Store × User × Option Error
  Updates : Store → Int → List (String × Value) → Store × Option Error
  UpdateColumn : Store → Int → String → Value → Store × Option Error
  Delete : Store → Int → Store

namespace cache.UserCache

/-- The call `cache.UserCache.Invalidate(id)`, recorded in the world. -/
def Invalidate (w : World) (id : Int) : World := { w with invalidated := id :: w.invalidated }

end cache.UserCache

namespace UserService

/-- The method `UserService.Update`: the repository writes through the pointer
`t`, and `t.Id` is read for the invalidation after that call. -/
def Update (repo : UserWrites) (w : World) (t : User) : Option Error × World :=
  let r := repo.Update w.db t
  (r.2.2, cache.UserCache.Invalidate { w with db := r.1 } r.2.1.id)

/-- The method `UserService.Updates`. -/
def Updates (repo : UserWrites) (w : World) (id : Int) (columns : List (String × Value)) :
    Option Error × World :=
  let r := repo.Updates w.db id columns
  (r.2, cache.UserCache.Invalidate { w with db := r.1 } id)

/-- The method `UserService.UpdateColumn`. -/
def UpdateColumn (repo : UserWrites) (w : World) (id : Int) (name : String) (value : Value) :
    Option Error × World :=
  let r := repo.UpdateColumn w.db id name value
  (r.2, cache.UserCache.Invalidate { w with db := r.1 } id)

/-- The method `UserService.Delete`. -/
def Delete (repo : UserWrites) (w : World) (id : Int) : World :=
  cache.UserCache.Invalidate { w with db := repo.Delete w.db id } id

/-- The user `Bind` resolves: by `SignIn` when the bind type is exactly `login`,
by `SignUp` with the avatar of the identity otherwise. -/
def resolveUser (env : Env) (w : World) (githubUser : GithubUser)
    (bindType username email password rePassword nickname : String) :
    Option User × Option Error × World :=
  if bindType = "login" then SignIn env w username password
  else SignUp env w username email password rePassword nickname githubUser.avatarUrl

end UserService

/-- The identity rows after `GithubUserRepository.Update` has written the record. -/
def replaceRows (rows : List GithubUser) (t : GithubUser) : List GithubUser :=
  rows.map (fun g => if g.id = t.id then t else g)

/-- A store whose `Update` of an identity always fails. -/
def brokenUpdateEnv : Env := { sampleEnv with githubUpdateFault := fun _ _ => some "timeout" }

/-- A repository for examples: `Update` saves the record, inserting it under a
newly assigned id when its id is blank and rewriting the rows with its id
otherwise; the column writes change nothing (and `Updates` fails); `Delete`
removes the row. -/
def sampleWrites : UserWrites where
  Update := fun db t =>
    if t.id = 0 then
      ({ db with users := db.users ++ [{ t with id := maxId db.users + 1 }] },
        { t with id := maxId db.users + 1 }, none)
    else ({ db with users := db.users.map (fun u => if u.id = t.id then t else u) }, t, none)
  Updates := fun db _ _ => (db, some (Error.repo "read only"))
  UpdateColumn := fun db _ _ _ => (db, none)
  Delete := fun db id => { db with users := db.users.filter (fun u => u.id != id) }

/-- The user a registration bind of `carol` creates next to alice, with the
avatar of bob's identity. -/
def carolUser : User :=
  ⟨2, "carol", "c@d.com", "Carol", "bcrypt:secret1", "pic", UserStatusOk, 1700000000, 1700000001⟩

/-- A store that holds alice and the identity of bob, linked to alice. -/
def linkedWorld : World := ⟨⟨[aliceUser], [bobLinkedToAlice]⟩, 0, []⟩

/-! ## Basic facts -/

theorem lenIsZero_iff (s : String) : lenIsZero s = true ↔ s = "" := by
  rw [String.ext_iff]
  cases s with
  | mk l => cases l <;> simp [lenIsZero]

theorem lenIsZero_eq (s : String) : lenIsZero s = decide (s = "") := by
  by_cases h : s = ""
  · subst h; rfl
  · have h1 : lenIsZero s ≠ true := fun hc => h ((lenIsZero_iff s).1 hc)
    simp [h, h1]

/-- All nine checks pass exactly when no check of the list fails. -/
theorem firstFailure_eq_none_iff (env : Env) (w : World)
    (username email password rePassword nickname : String) :
    SignUpSpec.firstFailure env w username email password rePassword nickname = none ↔
      (strings.TrimSpace username ≠ "" ∧ ¬ (strings.TrimSpace username).length < 5 ∧
        env.IsEmail (strings.TrimSpace email) = true ∧ password ≠ "" ∧
        ¬ password.length < 6 ∧ nickname ≠ "" ∧ password = rePassword ∧
        UserRepository.GetByUsername w.db (strings.TrimSpace username) = none ∧
        UserRepository.GetByEmail w.db (strings.TrimSpace email) = none) := by
  unfold SignUpSpec.firstFailure SignUpSpec.checks
  by_cases h1 : strings.TrimSpace username = ""
  · simp [h1]
  by_cases h2 : (strings.TrimSpace username).length < 5
  · simp [h1, h2]
  by_cases h3 : env.IsEmail (strings.TrimSpace email) = true
  swap
  · simp [h1, h2, h3]
  by_cases h4 : password = ""
  · simp [h1, h2, h3, h4]
  by_cases h5 : password.length < 6
  · simp [h1, h2, h3, h4, h5]
  by_cases h6 : nickname = ""
  · simp [h1, h2, h3, h4, h5, h6]
  by_cases h7 : password = rePassword
  swap
  · simp [h1, h2, h3, h4, h5, h6, h7]
  subst h7
  have h2' : 5 ≤ (strings.TrimSpace username).length := Nat.le_of_not_lt h2
  have h5' : 6 ≤ password.length := Nat.le_of_not_lt h5
  cases h8 : UserRepository.GetByUsername w.db (strings.TrimSpace username) with
  | some u => simp [h1, h2, h3, h4, h5, h6, h8]
  | none =>
    cases h9 : UserRepository.GetByEmail w.db (strings.TrimSpace email) with
    | some u => simp [h1, h2, h3, h4, h5, h6, h8, h9]
    | none => simp [h1, h2, h3, h4, h5, h6, h2', h5', h8, h9]

/-- The service-level `Create` spelled out on the store. -/
theorem Create_eq (env : Env) (w : World) (t : User) :
    UserService.Create env w t =
      match env.createFault w.db t with
      | some cause => (t, some (Error.repo cause), w)
      | none =>
        ({ t with id := maxId w.db.users + 1 }, none,
          { w with db := { w.db with users := w.db.users ++ [{ t with id := maxId w.db.users + 1 }] } }) := by
  unfold UserService.Create UserRepository.Create
  cases h : env.createFault w.db t <;> simp

/-- Once all nine checks pass, `SignUp` takes two clock readings, builds
`signUpRecord` and hands it to the store; the outcome of that write is its result. -/
theorem SignUp_of_checks_pass (env : Env) (w : World)
    (username email password rePassword nickname avatar : String)
    (hpass : SignUpSpec.firstFailure env w username email password rePassword nickname = none) :
    UserService.SignUp env w username email password rePassword nickname avatar =
      match env.createFault w.db (signUpRecord env w username email password nickname avatar) with
      | some cause =>
        (none, some (Error.repo cause), { w with ticks := w.ticks + 2 })
      | none =>
        (some { signUpRecord env w username email password nickname avatar with
                id := maxId w.db.users + 1 }, none,
          { db := { w.db with users := w.db.users ++
                      [{ signUpRecord env w username email password nickname avatar with
                          id := maxId w.db.users + 1 }] },
            ticks := w.ticks + 2, invalidated := w.invalidated }) := by
  obtain ⟨h1, h2, h3, h4, h5, h6, h7, h8, h9⟩ :=
    (firstFailure_eq_none_iff env w username email password rePassword nickname).1 hpass
  subst h7
  have hr : signUpRecord env w username email password nickname avatar =
      { id := 0, username := strings.TrimSpace username, email := strings.TrimSpace email,
        nickname := nickname, password := env.EncodePassword password, avatar := avatar,
        status := UserStatusOk, createTime := env.clock w.ticks,
        updateTime := env.clock (w.ticks + 1) } := rfl
  simp only [UserService.SignUp, simple.RuneLen, UserService.GetByUsername,
    UserService.GetByEmail, lenIsZero_eq, Create_eq, simple.NowTimestamp]
  simp only [h1, h2, h3, h4, h5, h6, h8, h9, ← hr]
  cases hf : env.createFault w.db (signUpRecord env w username email password nickname avatar)
  · simp
    simp [signUpRecord]
  · simp

/-- When some check fails, `SignUp` stops there: no user, the error of the
earliest failing check, and the world as it was. -/
theorem SignUp_of_check_fails (env : Env) (w : World)
    (username email password rePassword nickname avatar : String) (err : Error)
    (hff : SignUpSpec.firstFailure env w username email password rePassword nickname =
      some err) :
    UserService.SignUp env w username email password rePassword nickname avatar =
      (none, some err, w) := by
  revert hff
  simp only [SignUpSpec.firstFailure, SignUpSpec.checks, UserService.SignUp, simple.RuneLen,
    UserService.GetByUsername, UserService.GetByEmail, lenIsZero_eq]
  by_cases h1 : strings.TrimSpace username = ""
  · simp [h1]
  by_cases h2 : (strings.TrimSpace username).length < 5
  · simp [h1, h2]
  by_cases h3 : env.IsEmail (strings.TrimSpace email) = true
  swap
  · simp [h1, h2, h3]
  by_cases h4 : password = ""
  · simp [h1, h2, h3, h4]
  by_cases h5 : password.length < 6
  · simp [h1, h2, h3, h4, h5]
  by_cases h6 : nickname = ""
  · simp [h1, h2, h3, h4, h5, h6]
  by_cases h7 : password = rePassword
  swap
  · simp [h1, h2, h3, h4, h5, h6, h7]
  subst h7
  by_cases h8 : (UserRepository.GetByUsername w.db (strings.TrimSpace username)).isSome = true
  · simp [h1, h2, h3, h4, h5, h6, h8]
  by_cases h9 : (UserRepository.GetByEmail w.db (strings.TrimSpace email)).isSome = true
  · simp [h1, h2, h3, h4, h5, h6, h8, h9]
  simp [h1, h2, h3, h4, h5, h6, h8, h9]

/-- A successful `SignUp` passed all nine checks, its `Create` did not fail, the
user it returns is `signUpRecord` under the assigned id, and the world after
it has that user as the one new row. -/
theorem SignUp_success_inv (env : Env) (w w1 : World)
    (username email password rePassword nickname avatar : String) (U : User)
    (hup : UserService.SignUp env w username email password rePassword nickname avatar =
      (some U, none, w1)) :
    SignUpSpec.firstFailure env w username email password rePassword nickname = none ∧
    U = { signUpRecord env w username email password nickname avatar with
          id := maxId w.db.users + 1 } ∧
    w1 = ⟨⟨w.db.users ++ [U], w.db.githubUsers⟩, w.ticks + 2, w.invalidated⟩ := by
  cases hff : SignUpSpec.firstFailure env w username email password rePassword nickname with
  | some err =>
    rw [SignUp_of_check_fails env w username email password rePassword nickname avatar err hff]
      at hup
    simp at hup
  | none =>
    rw [SignUp_of_checks_pass env w username email password rePassword nickname avatar hff]
      at hup
    cases hf : env.createFault w.db (signUpRecord env w username email password nickname avatar)
      with
    | some cause => rw [hf] at hup; simp at hup
    | none =>
      rw [hf] at hup
      simp only [Prod.mk.injEq, Option.some.injEq, true_and] at hup
      obtain ⟨hU, hw⟩ := hup
      subst hU
      exact ⟨rfl, rfl, hw.symm⟩

/-! ## Sign-up: the order of the checks (C1) -/

/-- C1: for all inputs and every store state, when some check of the fixed
order (1)..(9) fails, `SignUp` returns no user, leaves the world as it was and
fails with the error of the earliest failing check; when all nine checks pass,
its error (if any) is none of the nine check errors. -/
theorem SignUp_fails_with_earliest_failing_check (env : Env) (w : World)
    (username email password rePassword nickname avatar : String) :
    match SignUpSpec.firstFailure env w username email password rePassword nickname with
    | some err =>
      UserService.SignUp env w username email password rePassword nickname avatar =
        (none, some err, w)
    | none =>
      ∀ c ∈ SignUpSpec.checks env w username email password rePassword nickname,
        (UserService.SignUp env w username email password rePassword nickname avatar).2.1 ≠
          some c.2 := by
  cases hff : SignUpSpec.firstFailure env w username email password rePassword nickname with
  | none =>
    simp only
    rw [SignUp_of_checks_pass env w username email password rePassword nickname avatar hff]
    intro c hc
    have hnew : ∃ text, c.2 = Error.new text := by
      simp only [SignUpSpec.checks, List.mem_cons, List.mem_singleton, List.not_mem_nil,
        or_false] at hc
      rcases hc with h | h | h | h | h | h | h | h | h <;> exact ⟨_, by rw [h]⟩
    obtain ⟨text, htext⟩ := hnew
    rw [htext]
    cases env.createFault w.db (signUpRecord env w username email password nickname avatar) <;>
      simp
  | some err =>
    exact SignUp_of_check_fails env w username email password rePassword nickname avatar err hff

/-! ## Sign-in: the decision (C2) -/

/-- C2: for every username, password and store state, `SignIn` is exactly this
decision, and never changes the world: an empty username fails, then an empty
password fails; otherwise the user is looked up by email when the identifier
is a valid email address and by username otherwise; an absent lookup fails with
"user not found", a stored password that does not verify fails with "wrong
password", and in every remaining case the looked-up record, which is a row of
the user table, is returned as it is stored. -/
theorem SignIn_decision (env : Env) (w : World) (username password : String) :
    (username = "" →
      UserService.SignIn env w username password =
        (none, some (Error.new "用户名/邮箱不能为空"), w)) ∧
    (username ≠ "" → password = "" →
      UserService.SignIn env w username password =
        (none, some (Error.new "密码不能为空"), w)) ∧
    (username ≠ "" → password ≠ "" → signInLookup env w username = none →
      UserService.SignIn env w username password =
        (none, some (Error.new "用户不存在"), w)) ∧
    (∀ user, username ≠ "" → password ≠ "" → signInLookup env w username = some user →
      env.ValidatePassword user.password password = false →
      UserService.SignIn env w username password =
        (none, some (Error.new "密码错误"), w)) ∧
    (∀ user, username ≠ "" → password ≠ "" → signInLookup env w username = some user →
      env.ValidatePassword user.password password = true →
      UserService.SignIn env w username password = (some user, none, w) ∧
        user ∈ w.db.users) ∧
    (signInLookup env w username =
      if env.IsEmail username then w.db.users.find? (fun u => u.email == username)
      else w.db.users.find? (fun u => u.username == username)) := by
  refine ⟨?_, ?_, ?_, ?_, ?_, ?_⟩
  · intro h1
    simp [UserService.SignIn, lenIsZero_eq, h1]
  · intro h1 h2
    simp [UserService.SignIn, lenIsZero_eq, h1, h2]
  · intro h1 h2 h3
    simp only [signInLookup] at h3
    simp [UserService.SignIn, lenIsZero_eq, h1, h2, UserService.GetByEmail,
      UserService.GetByUsername, h3]
  · intro user h1 h2 h3 h4
    simp only [signInLookup] at h3
    simp [UserService.SignIn, lenIsZero_eq, h1, h2, UserService.GetByEmail,
      UserService.GetByUsername, h3, h4]
  · intro user h1 h2 h3 h4
    constructor
    · simp only [signInLookup] at h3
      simp [UserService.SignIn, lenIsZero_eq, h1, h2, UserService.GetByEmail,
        UserService.GetByUsername, h3, h4]
    · simp only [signInLookup, UserRepository.GetByEmail, UserRepository.GetByUsername] at h3
      split at h3 <;> exact List.mem_of_find?_eq_some h3
  · rfl

/-- The decision of C2 on the store that holds alice: the right password signs
her in by email, a wrong one is refused, an unknown name is not found, and
empty arguments are rejected first. -/
theorem SignIn_decision_witness :
    UserService.SignIn sampleEnv (worldWith aliceUser) "a@b.com" "secret1" =
      (some aliceUser, none, worldWith aliceUser) ∧
    UserService.SignIn sampleEnv (worldWith aliceUser) "alice" "wrongpw" =
      (none, some (Error.new "密码错误"), worldWith aliceUser) ∧
    UserService.SignIn sampleEnv (worldWith aliceUser) "" "secret1" =
      (none, some (Error.new "用户名/邮箱不能为空"), worldWith aliceUser) ∧
    UserService.SignIn sampleEnv (worldWith aliceUser) "alice" "" =
      (none, some (Error.new "密码不能为空"), worldWith aliceUser) ∧
    UserService.SignIn sampleEnv (worldWith aliceUser) "carol" "secret1" =
      (none, some (Error.new "用户不存在"), worldWith aliceUser) :=
  ⟨((SignIn_decision sampleEnv (worldWith aliceUser) "a@b.com" "secret1").2.2.2.2.1 aliceUser
      (by decide) (by decide) (by decide) (by decide)).1,
    (SignIn_decision sampleEnv (worldWith aliceUser) "alice" "wrongpw").2.2.2.1 aliceUser
      (by decide) (by decide) (by decide) (by decide),
    (SignIn_decision sampleEnv (worldWith aliceUser) "" "secret1").1 rfl,
    (SignIn_decision sampleEnv (worldWith aliceUser) "alice" "").2.1 (by decide) rfl,
    (SignIn_decision sampleEnv (worldWith aliceUser) "carol" "secret1").2.2.1 (by decide)
      (by decide) (by decide)⟩

/-! ## Sign-up: the created user (C4) -/

/-- C4: for every input that passes all nine checks, `SignUp` takes two
readings of the clock and hands exactly one record to the store's `Create`,
the one with the trimmed username and email, the nickname and avatar as given,
the hashed password, status Ok and the two readings as create and update time;
if `Create` succeeds `SignUp` returns that record under its assigned id and the
record is the one new row of the user table; if `Create` fails `SignUp` returns
that same error and no user. -/
theorem SignUp_creates_user (env : Env) (w : World)
    (username email password rePassword nickname avatar : String)
    (hpass : SignUpSpec.firstFailure env w username email password rePassword nickname = none) :
    (UserService.SignUp env w username email password rePassword nickname avatar =
      match UserRepository.Create env w.db
          (signUpRecord env w username email password nickname avatar) with
      | (db1, user, none) => (some user, none, ⟨db1, w.ticks + 2, w.invalidated⟩)
      | (db1, _, some err) => (none, some err, ⟨db1, w.ticks + 2, w.invalidated⟩)) ∧
    (env.createFault w.db (signUpRecord env w username email password nickname avatar) = none →
      ∃ U : User,
        UserService.SignUp env w username email password rePassword nickname avatar =
          (some U, none,
            ⟨⟨w.db.users ++ [U], w.db.githubUsers⟩, w.ticks + 2, w.invalidated⟩) ∧
        U.username = strings.TrimSpace username ∧ U.email = strings.TrimSpace email ∧
        U.nickname = nickname ∧ U.avatar = avatar ∧
        U.password = env.EncodePassword password ∧ U.status = UserStatusOk ∧
        U.createTime = env.clock w.ticks ∧ U.updateTime = env.clock (w.ticks + 1)) ∧
    (∀ cause,
      env.createFault w.db (signUpRecord env w username email password nickname avatar) =
        some cause →
      UserService.SignUp env w username email password rePassword nickname avatar =
        (none, some (Error.repo cause), ⟨w.db, w.ticks + 2, w.invalidated⟩)) := by
  rw [SignUp_of_checks_pass env w username email password rePassword nickname avatar hpass]
  refine ⟨?_, ?_, ?_⟩
  · unfold UserRepository.Create
    cases env.createFault w.db (signUpRecord env w username email password nickname avatar) <;>
      rfl
  · intro hf
    rw [hf]
    exact ⟨_, rfl, rfl, rfl, rfl, rfl, rfl, rfl, rfl, rfl⟩
  · intro cause hf
    rw [hf]

/-- C4 on an empty store: the registration of alice passes the nine checks,
creates user 1 with the hashed password, and fails with the store's error when
`Create` fails. -/
theorem SignUp_creates_user_witness :
    UserService.SignUp sampleEnv emptyWorld "  alice " "a@b.com" "secret1" "secret1" "Nick" "pic" =
      (some ⟨1, "alice", "a@b.com", "Nick", "bcrypt:secret1", "pic", UserStatusOk,
          1700000000, 1700000001⟩, none,
        ⟨⟨[⟨1, "alice", "a@b.com", "Nick", "bcrypt:secret1", "pic", UserStatusOk,
          1700000000, 1700000001⟩], []⟩, 2, []⟩) ∧
    UserService.SignUp brokenCreateEnv emptyWorld "  alice " "a@b.com" "secret1" "secret1"
        "Nick" "pic" =
      (none, some (Error.repo "connection lost"), ⟨⟨[], []⟩, 2, []⟩) :=
  ⟨(SignUp_creates_user sampleEnv emptyWorld "  alice " "a@b.com" "secret1" "secret1" "Nick"
      "pic" (by decide)).1.trans (by decide),
    (SignUp_creates_user brokenCreateEnv emptyWorld "  alice " "a@b.com" "secret1" "secret1"
      "Nick" "pic" (by decide)).2.2 "connection lost" (by decide)⟩

/-! ## Sign-up, then sign-in (C3) -/

/-- A lookup that found nothing before the new row was appended finds the new
row, when the new row matches. -/
theorem find?_append_new {α : Type} (p : α → Bool) (l : List α) (a : α)
    (hnone : l.find? p = none) (ha : p a = true) : (l ++ [a]).find? p = some a := by
  rw [List.find?_append, hnone]
  simp [List.find?_cons, ha]

/-- C3, as stated, fails. A username that is itself a valid email address is
accepted by `SignUp`, the hasher contract holds and the store returns the
created record by its username and by its email, yet `SignIn` with that
username looks it up as an email and reports "user not found". And after the
registration of `alice`, the empty password does not verify against the stored
hash, yet `SignIn` rejects it as an empty password, not as a wrong one. -/
theorem SignIn_after_SignUp_counterexample :
    (UserService.SignUp sampleEnv emptyWorld "x@y.com" "a@b.com" "secret1" "secret1" "Nick" "" =
        (some mailNamedUser, none, worldWith mailNamedUser) ∧
      (∀ p, sampleEnv.ValidatePassword (sampleEnv.EncodePassword p) p = true) ∧
      UserRepository.GetByUsername (worldWith mailNamedUser).db mailNamedUser.username =
        some mailNamedUser ∧
      UserRepository.GetByEmail (worldWith mailNamedUser).db mailNamedUser.email =
        some mailNamedUser ∧
      UserService.SignIn sampleEnv (worldWith mailNamedUser) mailNamedUser.username "secret1" =
        (none, some (Error.new "用户不存在"), worldWith mailNamedUser)) ∧
    (UserService.SignUp sampleEnv emptyWorld "alice" "a@b.com" "secret1" "secret1" "Nick" "" =
        (some aliceUser, none, worldWith aliceUser) ∧
      sampleEnv.ValidatePassword (sampleEnv.EncodePassword "secret1") "" = false ∧
      UserService.SignIn sampleEnv (worldWith aliceUser) aliceUser.username "" =
        (none, some (Error.new "密码不能为空"), worldWith aliceUser)) := by
  refine ⟨⟨by decide, ?_, by decide, by decide, by decide⟩, by decide, by decide, by decide⟩
  intro p
  simp [sampleEnv]

/-- C3, amended: for every store state and every input on which `SignUp`
succeeds and creates user U, assuming the hasher contract and that U's
username is not a valid email address (or equals U's email), a following
`SignIn` with U's username and the password returns U, and a following
`SignIn` with U's username and a non-empty password that does not verify
against the hash of the password fails with "wrong password"; neither
sign-in changes the world. -/
theorem SignIn_after_SignUp (env : Env) (w w1 : World)
    (username email password rePassword nickname avatar : String) (U : User)
    (hup : UserService.SignUp env w username email password rePassword nickname avatar =
      (some U, none, w1))
    (hhash : ∀ p, env.ValidatePassword (env.EncodePassword p) p = true)
    (hname : env.IsEmail U.username = false ∨ U.username = U.email) :
    UserService.SignIn env w1 U.username password = (some U, none, w1) ∧
    ∀ p, p ≠ "" → env.ValidatePassword (env.EncodePassword password) p = false →
      UserService.SignIn env w1 U.username p = (none, some (Error.new "密码错误"), w1) := by
  obtain ⟨hpass, hU, hw⟩ :=
    SignUp_success_inv env w w1 username email password rePassword nickname avatar U hup
  obtain ⟨h1, -, h3, h4, -, -, -, h8, h9⟩ :=
    (firstFailure_eq_none_iff env w username email password rePassword nickname).1 hpass
  have hUn : U.username = strings.TrimSpace username := by rw [hU]; rfl
  have hUe : U.email = strings.TrimSpace email := by rw [hU]; rfl
  have hUp : U.password = env.EncodePassword password := by rw [hU]; rfl
  have hlook : signInLookup env w1 U.username = some U := by
    unfold signInLookup
    rw [hw]
    rcases hname with hne | heq
    · rw [hne]
      simp only [UserRepository.GetByUsername, Bool.false_eq_true, if_false]
      apply find?_append_new
      · rw [hUn]; exact h8
      · simp
    · by_cases hm : env.IsEmail U.username = true
      · rw [hm]
        simp only [UserRepository.GetByEmail, if_true]
        apply find?_append_new
        · rw [heq, hUe]; exact h9
        · simp [heq]
      · rw [Bool.not_eq_true] at hm
        rw [hm]
        simp only [UserRepository.GetByUsername, Bool.false_eq_true, if_false]
        apply find?_append_new
        · rw [hUn]; exact h8
        · simp
  have hne : U.username ≠ "" := by rw [hUn]; exact h1
  have key : ∀ p, p ≠ "" →
      UserService.SignIn env w1 U.username p =
        if env.ValidatePassword (env.EncodePassword password) p then (some U, none, w1)
        else (none, some (Error.new "密码错误"), w1) := by
    intro p hp
    simp only [signInLookup] at hlook
    simp only [UserService.SignIn, lenIsZero_eq, UserService.GetByEmail,
      UserService.GetByUsername, hlook, hne, hp, hUp]
    cases env.ValidatePassword (env.EncodePassword password) p <;> simp
  constructor
  · rw [key password h4, hhash password]; rfl
  · intro p hp hv
    rw [key p hp, hv]; rfl

/-- C3 amended, on an empty store: after the registration of `alice`, her
password signs her in as the created user and a wrong one is refused. -/
theorem SignIn_after_SignUp_witness :
    UserService.SignIn sampleEnv (worldWith aliceUser) "alice" "secret1" =
      (some aliceUser, none, worldWith aliceUser) ∧
    UserService.SignIn sampleEnv (worldWith aliceUser) "alice" "wrongpw" =
      (none, some (Error.new "密码错误"), worldWith aliceUser) :=
  have h := SignIn_after_SignUp sampleEnv emptyWorld (worldWith aliceUser) "alice" "a@b.com"
    "secret1" "secret1" "Nick" "" aliceUser (by decide) (fun p => by simp [sampleEnv])
    (Or.inl (by decide))
  ⟨h.1, h.2 "wrongpw" (by decide) (by decide)⟩

/-! ## Sign-in by Github: the three paths -/

/-- Fast path: the user the identity points to exists, and is returned. -/
theorem SignInByGithub_of_linked (env : Env) (w : World) (g : GithubUser) (user : User)
    (hget : UserRepository.Get w.db g.userId = some user) :
    UserService.SignInByGithub env w g = (some user, none, w) := by
  simp [UserService.SignInByGithub, UserService.Get, hget]

/-- Conflict path: no user under the identity's `userId`, and the login is taken. -/
theorem SignInByGithub_of_taken (env : Env) (w : World) (g : GithubUser) (other : User)
    (hget : UserRepository.Get w.db g.userId = none)
    (hname : UserRepository.GetByUsername w.db g.login = some other) :
    UserService.SignInByGithub env w g =
      (none, some (CodeError.NewError env.ErrorCodeUserNameExists "用户名已存在"), w) := by
  simp [UserService.SignInByGithub, UserService.Get, UserService.GetByUsername, hget, hname]

/-- Registration path: no user under the identity's `userId`, and the login is
free. Two clock readings are taken; the outcome is decided by the two writes of
the transaction. -/
theorem SignInByGithub_of_free (env : Env) (w : World) (g : GithubUser)
    (hget : UserRepository.Get w.db g.userId = none)
    (hname : UserRepository.GetByUsername w.db g.login = none) :
    UserService.SignInByGithub env w g =
      match env.createFault w.db
          (UserService.githubNewUser g (env.clock w.ticks) (env.clock (w.ticks + 1))) with
      | some cause =>
        (none, some (CodeError.NewError2 (Error.repo cause)),
          ⟨w.db, w.ticks + 2, w.invalidated⟩)
      | none =>
        match env.githubUpdateColumnFault
            ⟨w.db.users ++ [githubCreated env w g], w.db.githubUsers⟩ g.id "user_id"
            (maxId w.db.users + 1) with
        | some cause =>
          (none, some (CodeError.NewError2 (Error.repo cause)),
            ⟨w.db, w.ticks + 2, w.invalidated⟩)
        | none =>
          (some (githubCreated env w g), none,
            ⟨⟨w.db.users ++ [githubCreated env w g],
                linkRows w.db.githubUsers g.id (maxId w.db.users + 1)⟩,
              w.ticks + 2, w.invalidated⟩) := by
  simp only [UserService.SignInByGithub, UserService.Get, UserService.GetByUsername, hget,
    hname, simple.NowTimestamp, simple.Tx, UserService.createAndLink, UserRepository.Create,
    GithubUserRepository.UpdateColumn, githubCreated, linkRows]
  cases hc : env.createFault w.db
      (UserService.githubNewUser g (env.clock w.ticks) (env.clock (w.ticks + 1))) with
  | some cause => simp
  | none =>
    simp only [Option.isNone_none, if_true]
    cases hu : env.githubUpdateColumnFault
        ⟨w.db.users ++ [{ UserService.githubNewUser g (env.clock w.ticks)
            (env.clock (w.ticks + 1)) with id := maxId w.db.users + 1 }], w.db.githubUsers⟩
        g.id "user_id" (maxId w.db.users + 1) with
    | some cause => simp
    | none => simp [GithubUserRepository.setColumn]

/-- No row has an id above `maxId`. -/
theorem le_maxId (users : List User) (u : User) (hu : u ∈ users) : u.id ≤ maxId users := by
  induction users with
  | nil => cases hu
  | cons v vs ih =>
    rcases List.mem_cons.1 hu with h | h
    · rw [h]; exact le_max_left _ _
    · exact le_trans (ih h) (le_max_right _ _)

/-- No row is stored under the id the next `Create` assigns. -/
theorem find?_nextId (users : List User) :
    users.find? (fun u => u.id == maxId users + 1) = none := by
  rw [List.find?_eq_none]
  intro u hu
  have := le_maxId users u hu
  simp only [beq_iff_eq]
  omega

/-- A row created under the next id is the row found under that id afterwards. -/
theorem Get_created (db : Store) (rows : List GithubUser) (U : User)
    (hid : U.id = maxId db.users + 1) :
    UserRepository.Get ⟨db.users ++ [U], rows⟩ U.id = some U := by
  unfold UserRepository.Get
  apply find?_append_new
  · rw [hid]; exact find?_nextId db.users
  · simp

/-- The largest id of a table is never negative. -/
theorem maxId_nonneg (users : List User) : 0 ≤ maxId users := by
  induction users with
  | nil => exact le_refl _
  | cons u us ih => exact le_trans ih (le_max_right _ _)

/-! ## The invariant of the user table -/

/-- The empty store has the invariant. -/
theorem IdsAssigned_empty : IdsAssigned emptyWorld.db := by
  intro u hu
  cases hu

/-- In a store with the invariant no user is stored under the blank id 0. -/
theorem Get_zero_of_IdsAssigned (db : Store) (hids : IdsAssigned db) :
    UserRepository.Get db 0 = none := by
  unfold UserRepository.Get
  rw [List.find?_eq_none]
  intro u hu
  have := hids u hu
  simp only [beq_iff_eq]
  omega

/-- Appending a row under the next id keeps the invariant. -/
theorem IdsAssigned_append (db : Store) (rows : List GithubUser) (U : User)
    (hids : IdsAssigned db) (hid : U.id = maxId db.users + 1) :
    IdsAssigned ⟨db.users ++ [U], rows⟩ := by
  intro u hu
  rcases List.mem_append.1 hu with h | h
  · exact hids u h
  · rw [List.mem_singleton.1 h, hid]
    have := maxId_nonneg db.users
    omega

/-- The store's `Create` keeps the invariant. -/
theorem Create_keeps_IdsAssigned (env : Env) (db : Store) (t : User) (hids : IdsAssigned db) :
    IdsAssigned (UserRepository.Create env db t).1 := by
  unfold UserRepository.Create
  cases env.createFault db t with
  | some cause => exact hids
  | none => exact IdsAssigned_append db db.githubUsers _ hids rfl

/-- `SignUp` keeps the invariant. -/
theorem SignUp_keeps_IdsAssigned (env : Env) (w : World)
    (username email password rePassword nickname avatar : String) (hids : IdsAssigned w.db) :
    IdsAssigned
      (UserService.SignUp env w username email password rePassword nickname avatar).2.2.db := by
  cases hff : SignUpSpec.firstFailure env w username email password rePassword nickname with
  | some err =>
    rw [SignUp_of_check_fails env w username email password rePassword nickname avatar err hff]
    exact hids
  | none =>
    rw [SignUp_of_checks_pass env w username email password rePassword nickname avatar hff]
    cases env.createFault w.db (signUpRecord env w username email password nickname avatar) with
    | some cause => exact hids
    | none => exact IdsAssigned_append w.db w.db.githubUsers _ hids rfl

/-- `SignInByGithub` keeps the invariant. -/
theorem SignInByGithub_keeps_IdsAssigned (env : Env) (w : World) (g : GithubUser)
    (hids : IdsAssigned w.db) : IdsAssigned (UserService.SignInByGithub env w g).2.2.db := by
  cases h0 : UserRepository.Get w.db g.userId with
  | some u => rw [SignInByGithub_of_linked env w g u h0]; exact hids
  | none =>
    cases hn : UserRepository.GetByUsername w.db g.login with
    | some other => rw [SignInByGithub_of_taken env w g other h0 hn]; exact hids
    | none =>
      rw [SignInByGithub_of_free env w g h0 hn]
      cases env.createFault w.db
          (UserService.githubNewUser g (env.clock w.ticks) (env.clock (w.ticks + 1))) with
      | some cause => exact hids
      | none =>
        cases env.githubUpdateColumnFault
            ⟨w.db.users ++ [githubCreated env w g], w.db.githubUsers⟩ g.id "user_id"
            (maxId w.db.users + 1) with
        | some cause => exact hids
        | none => exact IdsAssigned_append w.db _ (githubCreated env w g) hids rfl

/-! ## Sign-in by Github: a linked identity can be re-linked (C5) -/

/-- `Bind` on an identity that does not exist fails and changes nothing. -/
theorem Bind_of_missing (env : Env) (w : World) (githubId : Int)
    (bindType username email password rePassword nickname : String)
    (hget : GithubUserRepository.Get w.db githubId = none) :
    UserService.Bind env w githubId bindType username email password rePassword nickname =
      (none, some (Error.new "Github账号未找到"), w) := by
  simp [UserService.Bind, hget]

/-- `Bind` on an identity whose stored `userId` is already positive fails and
changes nothing: re-linking through `Bind` is rejected. -/
theorem Bind_of_linked (env : Env) (w : World) (githubId : Int)
    (bindType username email password rePassword nickname : String) (githubUser : GithubUser)
    (hget : GithubUserRepository.Get w.db githubId = some githubUser)
    (hlinked : githubUser.userId > 0) :
    UserService.Bind env w githubId bindType username email password rePassword nickname =
      (none, some (Error.new "Github账号已绑定了用户"), w) := by
  simp [UserService.Bind, hget, hlinked]

/-- C5, evaluated at a failing input. The stored identity has `userId = 7 > 0`
(user 7 is gone from the user table), and `SignInByGithub` called with that
stored record registers a new user 2 and overwrites the stored `userId`
with 2. The same happens to an identity stored as linked to the existing user 1
when the caller passes a copy of it that still has `userId = 0`. -/
theorem SignInByGithub_relinks_linked_identity :
    (GithubUserRepository.Get danglingWorld.db 10 = some bobIdentity ∧
      bobIdentity.userId = 7 ∧
      UserRepository.Get danglingWorld.db 7 = none ∧
      (UserService.SignInByGithub sampleEnv danglingWorld bobIdentity).2.1 = none ∧
      (GithubUserRepository.Get
          (UserService.SignInByGithub sampleEnv danglingWorld bobIdentity).2.2.db 10).map
        (fun g => g.userId) = some 2) ∧
    ((GithubUserRepository.Get (⟨⟨[aliceUser], [bobLinkedToAlice]⟩, 0, []⟩ : World).db 10).map
        (fun g => g.userId) = some 1 ∧
      (GithubUserRepository.Get
          (UserService.SignInByGithub sampleEnv ⟨⟨[aliceUser], [bobLinkedToAlice]⟩, 0, []⟩
            { bobLinkedToAlice with userId := 0 }).2.2.db 10).map
        (fun g => g.userId) = some 2) := by
  decide

/-! ## Sign-in by Github: two users can share an email (C6) -/

/-- Appending a row keeps a column unique when no stored row has the new value. -/
theorem nodup_map_append_new {β : Type} (f : User → β) (users : List User) (a : User)
    (hnodup : (users.map f).Nodup) (hnew : ∀ u ∈ users, f u ≠ f a) :
    ((users ++ [a]).map f).Nodup := by
  rw [List.map_append, List.nodup_append]
  refine ⟨hnodup, by simp, ?_⟩
  intro x hx1 hx2
  simp only [List.map_cons, List.map_nil, List.mem_singleton] at hx2
  obtain ⟨u, hu, hfu⟩ := List.mem_map.1 hx1
  exact hnew u hu (by rw [hfu, hx2])

/-- What C6 claims does hold for `SignUp`: it keeps usernames and emails unique. -/
theorem SignUp_keeps_unique (env : Env) (w : World)
    (username email password rePassword nickname avatar : String)
    (hu : UniqueUsernames w.db) (he : UniqueEmails w.db) :
    UniqueUsernames
        (UserService.SignUp env w username email password rePassword nickname avatar).2.2.db ∧
      UniqueEmails
        (UserService.SignUp env w username email password rePassword nickname avatar).2.2.db := by
  cases hff : SignUpSpec.firstFailure env w username email password rePassword nickname with
  | some err =>
    rw [SignUp_of_check_fails env w username email password rePassword nickname avatar err hff]
    exact ⟨hu, he⟩
  | none =>
    rw [SignUp_of_checks_pass env w username email password rePassword nickname avatar hff]
    obtain ⟨-, -, -, -, -, -, -, h8, h9⟩ :=
      (firstFailure_eq_none_iff env w username email password rePassword nickname).1 hff
    cases env.createFault w.db (signUpRecord env w username email password nickname avatar) with
    | some cause => exact ⟨hu, he⟩
    | none =>
      constructor
      · apply nodup_map_append_new _ _ _ hu
        intro u hmem
        have := List.find?_eq_none.1 h8 u hmem
        simpa [signUpRecord] using this
      · apply nodup_map_append_new _ _ _ he
        intro u hmem
        have := List.find?_eq_none.1 h9 u hmem
        simpa [signUpRecord] using this

/-- What C6 claims does hold for the usernames under `SignInByGithub`: it keeps
them unique. -/
theorem SignInByGithub_keeps_unique_usernames (env : Env) (w : World) (g : GithubUser)
    (hu : UniqueUsernames w.db) :
    UniqueUsernames (UserService.SignInByGithub env w g).2.2.db := by
  cases h0 : UserRepository.Get w.db g.userId with
  | some u => rw [SignInByGithub_of_linked env w g u h0]; exact hu
  | none =>
    cases hn : UserRepository.GetByUsername w.db g.login with
    | some other => rw [SignInByGithub_of_taken env w g other h0 hn]; exact hu
    | none =>
      rw [SignInByGithub_of_free env w g h0 hn]
      cases env.createFault w.db
          (UserService.githubNewUser g (env.clock w.ticks) (env.clock (w.ticks + 1))) with
      | some cause => exact hu
      | none =>
        cases env.githubUpdateColumnFault
            ⟨w.db.users ++ [githubCreated env w g], w.db.githubUsers⟩ g.id "user_id"
            (maxId w.db.users + 1) with
        | some cause => exact hu
        | none =>
          apply nodup_map_append_new _ _ _ hu
          intro u hmem
          have := List.find?_eq_none.1 hn u hmem
          simpa [githubCreated, UserService.githubNewUser] using this

/-- C6, evaluated at a failing input. Usernames and emails are unique in the
store that holds only alice; `SignInByGithub` on an unlinked identity with the
free login `bob` and alice's email succeeds, and afterwards two users share
that email. -/
theorem SignInByGithub_duplicates_email :
    UniqueUsernames (worldWith aliceUser).db ∧ UniqueEmails (worldWith aliceUser).db ∧
    (UserService.SignInByGithub sampleEnv (worldWith aliceUser) bobWithAliceEmail).2.1 = none ∧
    ((UserService.SignInByGithub sampleEnv (worldWith aliceUser) bobWithAliceEmail).2.2.db.users.map
      (fun u => (u.username, u.email))) = [("alice", "a@b.com"), ("bob", "a@b.com")] ∧
    ¬ UniqueEmails
      (UserService.SignInByGithub sampleEnv (worldWith aliceUser) bobWithAliceEmail).2.2.db := by
  decide

/-! ## Sign-in by Github: registration of a new identity (C7) -/

/-- C7: for every unlinked identity (`userId = 0`) whose login equals no
existing username, in every store with the invariant of the user table (ids
assigned at creation, hence at least 1), when both store writes succeed
`SignInByGithub` creates exactly one new user U, appended to the user table,
with username = login, email = the identity's email, nickname = the identity's
name, avatar = the identity's avatar URL, status Ok and the two clock readings
of the call as timestamps; it sets the `userId` of the stored identity rows
with the identity's id to U's id, leaves every other identity row as it was,
and returns U. -/
theorem SignInByGithub_creates_user (env : Env) (w : World) (g : GithubUser)
    (hids : IdsAssigned w.db)
    (hunlinked : g.userId = 0)
    (hfree : UserRepository.GetByUsername w.db g.login = none)
    (hcreate : env.createFault w.db
      (UserService.githubNewUser g (env.clock w.ticks) (env.clock (w.ticks + 1))) = none)
    (hlink : env.githubUpdateColumnFault ⟨w.db.users ++ [githubCreated env w g], w.db.githubUsers⟩
      g.id "user_id" (maxId w.db.users + 1) = none) :
    ∃ U : User,
      UserService.SignInByGithub env w g =
        (some U, none,
          ⟨⟨w.db.users ++ [U], linkRows w.db.githubUsers g.id U.id⟩, w.ticks + 2,
            w.invalidated⟩) ∧
      U.username = g.login ∧ U.email = g.email ∧ U.nickname = g.name ∧
      U.avatar = g.avatarUrl ∧ U.status = UserStatusOk ∧
      U.createTime = env.clock w.ticks ∧ U.updateTime = env.clock (w.ticks + 1) ∧
      U ∉ w.db.users ∧
      (∀ r, GithubUserRepository.Get w.db g.id = some r →
        GithubUserRepository.Get ⟨w.db.users ++ [U], linkRows w.db.githubUsers g.id U.id⟩ g.id =
          some { r with userId := U.id }) := by
  have hzero := Get_zero_of_IdsAssigned w.db hids
  have hget : UserRepository.Get w.db g.userId = none := by rw [hunlinked]; exact hzero
  refine ⟨githubCreated env w g, ?_, rfl, rfl, rfl, rfl, rfl, rfl, rfl, ?_, ?_⟩
  · rw [SignInByGithub_of_free env w g hget hfree, hcreate]
    simp only
    rw [hlink]
    rfl
  · intro hmem
    have := le_maxId w.db.users _ hmem
    simp only [githubCreated] at this
    omega
  · intro r hr
    simp only [GithubUserRepository.Get, linkRows] at hr ⊢
    rw [List.find?_map]
    have hcomp : ((fun x : GithubUser => x.id == g.id) ∘
        fun x : GithubUser => if x.id = g.id then { x with userId := (githubCreated env w g).id }
          else x) = fun x : GithubUser => x.id == g.id := by
      funext x
      by_cases hx : x.id = g.id <;> simp [hx]
    rw [hcomp, hr]
    have hrid : r.id = g.id := by
      have := List.find?_some hr
      simpa using this
    simp [hrid]

/-- C7 on a store that holds alice and the unlinked identity of bob: bob is
registered as the second user row and the stored identity is linked to him. -/
theorem SignInByGithub_creates_user_witness :
    ∃ U : User,
      UserService.SignInByGithub sampleEnv aliceAndBobWorld bobUnlinked =
        (some U, none, ⟨⟨[aliceUser, U], [{ bobUnlinked with userId := U.id }]⟩, 2, []⟩) ∧
      U.username = "bob" ∧ U.email = "bob@example.com" ∧ U.nickname = "Bob" :=
  match SignInByGithub_creates_user sampleEnv aliceAndBobWorld bobUnlinked
      (by decide) (by decide) (by decide) (by decide) (by decide) with
  | ⟨U, h, hn, he, hk, _⟩ => ⟨U, h, hn, he, hk⟩

/-! ## Sign-in by Github: the second call (C8) -/

/-- C8: after a successful call of `SignInByGithub` that returned user U,
calling it again with an identity whose `userId` is U's id (the identity as
now stored) returns U and leaves the world, hence every store row and the
number of user rows, exactly as it was. -/
theorem SignInByGithub_idempotent (env : Env) (w w1 : World) (g g1 : GithubUser) (U : User)
    (hfirst : UserService.SignInByGithub env w g = (some U, none, w1))
    (hlinked : g1.userId = U.id) :
    UserService.SignInByGithub env w1 g1 = (some U, none, w1) ∧
    (UserService.SignInByGithub env w1 g1).2.2.db = w1.db ∧
    (UserService.SignInByGithub env w1 g1).2.2.db.users.length = w1.db.users.length := by
  have hget : UserRepository.Get w1.db g1.userId = some U := by
    rw [hlinked]
    cases h0 : UserRepository.Get w.db g.userId with
    | some u =>
      rw [SignInByGithub_of_linked env w g u h0] at hfirst
      simp only [Prod.mk.injEq, Option.some.injEq, true_and] at hfirst
      obtain ⟨hu, hw⟩ := hfirst
      subst hu hw
      have hid : u.id = g.userId := by
        have := List.find?_some h0
        simpa using this
      rw [hid]; exact h0
    | none =>
      cases hn : UserRepository.GetByUsername w.db g.login with
      | some other =>
        rw [SignInByGithub_of_taken env w g other h0 hn] at hfirst
        simp at hfirst
      | none =>
        rw [SignInByGithub_of_free env w g h0 hn] at hfirst
        cases hc : env.createFault w.db
            (UserService.githubNewUser g (env.clock w.ticks) (env.clock (w.ticks + 1))) with
        | some cause => rw [hc] at hfirst; simp at hfirst
        | none =>
          rw [hc] at hfirst
          simp only at hfirst
          cases hu : env.githubUpdateColumnFault
              ⟨w.db.users ++ [githubCreated env w g], w.db.githubUsers⟩ g.id "user_id"
              (maxId w.db.users + 1) with
          | some cause => rw [hu] at hfirst; simp at hfirst
          | none =>
            rw [hu] at hfirst
            simp only [Prod.mk.injEq, Option.some.injEq, true_and] at hfirst
            obtain ⟨hU, hw⟩ := hfirst
            subst hU hw
            exact Get_created w.db _ (githubCreated env w g) rfl
  have h := SignInByGithub_of_linked env w1 g1 U hget
  exact ⟨h, by rw [h], by rw [h]⟩

/-- C8 on the store that holds alice and the unlinked identity of bob: the first
call registers bob as user 2, and the call with the identity as now stored
returns the same user and changes nothing. -/
theorem SignInByGithub_idempotent_witness :
    UserService.SignInByGithub sampleEnv
        (UserService.SignInByGithub sampleEnv aliceAndBobWorld bobUnlinked).2.2
        { bobUnlinked with userId := 2 } =
      (some (githubCreated sampleEnv aliceAndBobWorld bobUnlinked), none,
        (UserService.SignInByGithub sampleEnv aliceAndBobWorld bobUnlinked).2.2) :=
  (SignInByGithub_idempotent sampleEnv aliceAndBobWorld
    (UserService.SignInByGithub sampleEnv aliceAndBobWorld bobUnlinked).2.2
    bobUnlinked { bobUnlinked with userId := 2 }
    (githubCreated sampleEnv aliceAndBobWorld bobUnlinked) (by decide) (by decide)).1

/-! ## Sign-in by Github: a taken login (C9) -/

/-- C9: for every identity with `userId = 0` whose login equals the username of
an existing user, in every store with the invariant of the user table (ids
assigned at creation, hence at least 1), `SignInByGithub` fails with the
username-conflict error, returns no user, and leaves the world, hence every
user and identity row, unchanged. -/
theorem SignInByGithub_conflict (env : Env) (w : World) (g : GithubUser) (other : User)
    (hids : IdsAssigned w.db)
    (hunlinked : g.userId = 0)
    (hmem : other ∈ w.db.users) (hname : other.username = g.login) :
    UserService.SignInByGithub env w g =
      (none, some (CodeError.NewError env.ErrorCodeUserNameExists "用户名已存在"), w) := by
  have hzero := Get_zero_of_IdsAssigned w.db hids
  have hget : UserRepository.Get w.db g.userId = none := by rw [hunlinked]; exact hzero
  cases hn : UserRepository.GetByUsername w.db g.login with
  | some found => exact SignInByGithub_of_taken env w g found hget hn
  | none =>
    exfalso
    have := List.find?_eq_none.1 hn other hmem
    simp [hname] at this

/-- C9 on the store that holds alice: the identity with login `alice` is
refused and the world is unchanged. -/
theorem SignInByGithub_conflict_witness :
    UserService.SignInByGithub sampleEnv ⟨⟨[aliceUser], [aliceLogin]⟩, 0, []⟩ aliceLogin =
      (none, some (CodeError.NewError 10 "用户名已存在"), ⟨⟨[aliceUser], [aliceLogin]⟩, 0, []⟩) :=
  SignInByGithub_conflict sampleEnv ⟨⟨[aliceUser], [aliceLogin]⟩, 0, []⟩ aliceLogin aliceUser
    (by decide) (by decide) (by decide) (by decide)

/-! ## Sign-in by Github: the transaction (C10) -/

/-- C10: on the registration path of `SignInByGithub` (no user under the
identity's `userId`, login free), if the user `Create` fails, or it succeeds
and the write of the identity's `user_id` column fails, the call returns no
user and the store's error wrapped by `simple.NewError2`, and the store after
the call equals the store before it: neither the user nor the link is left. -/
theorem SignInByGithub_atomic (env : Env) (w : World) (g : GithubUser)
    (hget : UserRepository.Get w.db g.userId = none)
    (hfree : UserRepository.GetByUsername w.db g.login = none)
    (hfail :
      env.createFault w.db
          (UserService.githubNewUser g (env.clock w.ticks) (env.clock (w.ticks + 1))) ≠ none ∨
      env.githubUpdateColumnFault ⟨w.db.users ++ [githubCreated env w g], w.db.githubUsers⟩
          g.id "user_id" (maxId w.db.users + 1) ≠ none) :
    (∃ cause, (UserService.SignInByGithub env w g).2.1 =
        some (CodeError.NewError2 (Error.repo cause))) ∧
    (UserService.SignInByGithub env w g).1 = none ∧
    (UserService.SignInByGithub env w g).2.2.db = w.db := by
  rw [SignInByGithub_of_free env w g hget hfree]
  cases hc : env.createFault w.db
      (UserService.githubNewUser g (env.clock w.ticks) (env.clock (w.ticks + 1))) with
  | some cause => exact ⟨⟨cause, rfl⟩, rfl, rfl⟩
  | none =>
    cases hu : env.githubUpdateColumnFault
        ⟨w.db.users ++ [githubCreated env w g], w.db.githubUsers⟩ g.id "user_id"
        (maxId w.db.users + 1) with
    | some cause => exact ⟨⟨cause, rfl⟩, rfl, rfl⟩
    | none =>
      rw [hc, hu] at hfail
      simp at hfail

/-- C10 on the store that holds alice and the unlinked identity of bob: when the
create fails, and when the create succeeds and the link fails, the call fails
and the store is the one before the call. -/
theorem SignInByGithub_atomic_witness :
    (UserService.SignInByGithub brokenCreateEnv aliceAndBobWorld bobUnlinked).2.2.db =
      aliceAndBobWorld.db ∧
    (UserService.SignInByGithub brokenLinkEnv aliceAndBobWorld bobUnlinked).2.2.db =
      aliceAndBobWorld.db ∧
    (UserService.SignInByGithub brokenLinkEnv aliceAndBobWorld bobUnlinked).1 = none :=
  ⟨(SignInByGithub_atomic brokenCreateEnv aliceAndBobWorld bobUnlinked (by decide) (by decide)
      (Or.inl (by decide))).2.2,
    (SignInByGithub_atomic brokenLinkEnv aliceAndBobWorld bobUnlinked (by decide) (by decide)
      (Or.inr (by decide))).2.2,
    (SignInByGithub_atomic brokenLinkEnv aliceAndBobWorld bobUnlinked (by decide) (by decide)
      (Or.inr (by decide))).2.1⟩

/-! ## Bind: the shape of the results it builds on -/

/-- `SignIn` returns either an error and no user, or a user and no error, and
the world as it was. -/
theorem SignIn_result (env : Env) (w : World) (username password : String) :
    (∃ err, UserService.SignIn env w username password = (none, some err, w)) ∨
    (∃ user, UserService.SignIn env w username password = (some user, none, w)) := by
  by_cases h1 : username = ""
  · exact Or.inl ⟨Error.new "用户名/邮箱不能为空", by simp [UserService.SignIn, lenIsZero_eq, h1]⟩
  by_cases h2 : password = ""
  · exact Or.inl ⟨Error.new "密码不能为空", by
      simp [UserService.SignIn, lenIsZero_eq, h1, h2]⟩
  cases hl : signInLookup env w username with
  | none =>
    simp only [signInLookup] at hl
    exact Or.inl ⟨Error.new "用户不存在", by
      simp [UserService.SignIn, lenIsZero_eq, h1, h2, UserService.GetByEmail,
        UserService.GetByUsername, hl]⟩
  | some user =>
    simp only [signInLookup] at hl
    cases hv : env.ValidatePassword user.password password with
    | false =>
      exact Or.inl ⟨Error.new "密码错误", by
        simp [UserService.SignIn, lenIsZero_eq, h1, h2, UserService.GetByEmail,
          UserService.GetByUsername, hl, hv]⟩
    | true =>
      exact Or.inr ⟨user, by
        simp [UserService.SignIn, lenIsZero_eq, h1, h2, UserService.GetByEmail,
          UserService.GetByUsername, hl, hv]⟩

/-- `SignIn` never changes the world. -/
theorem SignIn_world (env : Env) (w : World) (username password : String) :
    (UserService.SignIn env w username password).2.2 = w := by
  rcases SignIn_result env w username password with ⟨err, h⟩ | ⟨user, h⟩ <;> rw [h]

/-- `SignUp` returns either an error and no user, or a user and no error; in
both cases the identity rows are the ones before the call. -/
theorem SignUp_result (env : Env) (w : World)
    (username email password rePassword nickname avatar : String) :
    ((∃ err w1, UserService.SignUp env w username email password rePassword nickname avatar =
        (none, some err, w1)) ∨
      (∃ user w1, UserService.SignUp env w username email password rePassword nickname avatar =
        (some user, none, w1))) ∧
    (UserService.SignUp env w username email password rePassword nickname
      avatar).2.2.db.githubUsers = w.db.githubUsers := by
  cases hff : SignUpSpec.firstFailure env w username email password rePassword nickname with
  | some err =>
    rw [SignUp_of_check_fails env w username email password rePassword nickname avatar err hff]
    exact ⟨Or.inl ⟨_, _, rfl⟩, rfl⟩
  | none =>
    rw [SignUp_of_checks_pass env w username email password rePassword nickname avatar hff]
    cases env.createFault w.db (signUpRecord env w username email password nickname avatar) with
    | some cause => exact ⟨Or.inl ⟨_, _, rfl⟩, rfl⟩
    | none => exact ⟨Or.inr ⟨_, _, rfl⟩, rfl⟩

/-- The resolution step of `Bind` leaves the identity rows as they were. -/
theorem resolveUser_githubUsers (env : Env) (w : World) (githubUser : GithubUser)
    (bindType username email password rePassword nickname : String) :
    (UserService.resolveUser env w githubUser bindType username email password rePassword
      nickname).2.2.db.githubUsers = w.db.githubUsers := by
  unfold UserService.resolveUser
  split
  · rw [SignIn_world]
  · exact (SignUp_result env w username email password rePassword nickname _).2

/-- `Bind` on an existing identity whose `userId` is not positive: the outcome of
the resolution step decides, and only a resolved user is linked. -/
theorem Bind_of_unlinked (env : Env) (w : World) (githubId : Int)
    (bindType username email password rePassword nickname : String) (githubUser : GithubUser)
    (hget : GithubUserRepository.Get w.db githubId = some githubUser)
    (hnot : ¬ githubUser.userId > 0) :
    UserService.Bind env w githubId bindType username email password rePassword nickname =
      match UserService.resolveUser env w githubUser bindType username email password
          rePassword nickname with
      | (user, some err, w1) => (user, some err, w1)
      | (none, none, w1) => (none, some (Error.new "未知异常"), w1)
      | (some user, none, w1) =>
        (some user,
          (GithubUserRepository.Update env w1.db
            { githubUser with userId := user.id, updateTime := env.clock w1.ticks }).2,
          ⟨(GithubUserRepository.Update env w1.db
            { githubUser with userId := user.id, updateTime := env.clock w1.ticks }).1,
            w1.ticks + 1, w1.invalidated⟩) := by
  simp only [UserService.Bind, hget, hnot, if_false, UserService.resolveUser,
    simple.NowTimestamp]

/-- A row found under an id is, after `Update` has written a record with the
id of that row, found as the written record. -/
theorem Get_replaceRows (rows : List GithubUser) (id : Int) (g t : GithubUser)
    (hfound : rows.find? (fun x => x.id == id) = some g) (hid : t.id = g.id) :
    (replaceRows rows t).find? (fun x => x.id == id) = some t := by
  have hgid : g.id = id := by
    have := List.find?_some hfound
    simpa using this
  unfold replaceRows
  rw [List.find?_map]
  have hcomp : ((fun x : GithubUser => x.id == id) ∘
      fun x : GithubUser => if x.id = t.id then t else x) = fun x : GithubUser => x.id == id := by
    funext x
    by_cases hx : x.id = t.id
    · simp [hx, hid, hgid]
    · simp [hx]
  rw [hcomp, hfound]
  simp [hid, hgid]

/-- `Bind` keeps the invariant of the user table. -/
theorem Bind_keeps_IdsAssigned (env : Env) (w : World) (githubId : Int)
    (bindType username email password rePassword nickname : String) (hids : IdsAssigned w.db) :
    IdsAssigned
      (UserService.Bind env w githubId bindType username email password rePassword
        nickname).2.2.db := by
  cases hget : GithubUserRepository.Get w.db githubId with
  | none =>
    rw [Bind_of_missing env w githubId bindType username email password rePassword nickname
      hget]
    exact hids
  | some githubUser =>
    by_cases hlinked : githubUser.userId > 0
    · rw [Bind_of_linked env w githubId bindType username email password rePassword nickname
        githubUser hget hlinked]
      exact hids
    · rw [Bind_of_unlinked env w githubId bindType username email password rePassword nickname
        githubUser hget hlinked]
      have hres : IdsAssigned (UserService.resolveUser env w githubUser bindType username email
          password rePassword nickname).2.2.db := by
        unfold UserService.resolveUser
        split
        · rw [SignIn_world]; exact hids
        · exact SignUp_keeps_IdsAssigned env w username email password rePassword nickname _
            hids
      rcases hr : UserService.resolveUser env w githubUser bindType username email password
        rePassword nickname with ⟨user, err, w1⟩
      rw [hr] at hres
      cases err with
      | some e => cases user <;> exact hres
      | none =>
        cases user with
        | none => exact hres
        | some U =>
          simp only [GithubUserRepository.Update]
          cases env.githubUpdateFault w1.db
            { githubUser with userId := U.id, updateTime := env.clock w1.ticks } <;> exact hres

/-! ## Bind: resolve, then link (C11) -/

/-- C11: for every existing identity whose `userId` is not positive, `Bind`
resolves the user by `SignIn(username, password)` when the bind type is exactly
`login` and by `SignUp` with the identity's avatar URL for every other bind
type; if that call fails `Bind` returns the same error (and the same world);
if it succeeds with user U and the identity `Update` succeeds, `Bind` returns
U with no error, the user rows are those the resolution left, and the stored
identity is the old row with `userId = U.id` and the clock reading of the call
as `updateTime`. -/
theorem Bind_resolves_and_links (env : Env) (w : World) (githubId : Int)
    (bindType username email password rePassword nickname : String) (githubUser : GithubUser)
    (hget : GithubUserRepository.Get w.db githubId = some githubUser)
    (hnot : ¬ githubUser.userId > 0) :
    (bindType = "login" →
      UserService.resolveUser env w githubUser bindType username email password rePassword
        nickname = UserService.SignIn env w username password) ∧
    (bindType ≠ "login" →
      UserService.resolveUser env w githubUser bindType username email password rePassword
        nickname =
      UserService.SignUp env w username email password rePassword nickname
        githubUser.avatarUrl) ∧
    (∀ user err w1,
      UserService.resolveUser env w githubUser bindType username email password rePassword
        nickname = (user, some err, w1) →
      UserService.Bind env w githubId bindType username email password rePassword nickname =
        (user, some err, w1)) ∧
    (∀ U w1,
      UserService.resolveUser env w githubUser bindType username email password rePassword
        nickname = (some U, none, w1) →
      env.githubUpdateFault w1.db
        { githubUser with userId := U.id, updateTime := env.clock w1.ticks } = none →
      UserService.Bind env w githubId bindType username email password rePassword nickname =
        (some U, none,
          ⟨⟨w1.db.users, replaceRows w1.db.githubUsers
              { githubUser with userId := U.id, updateTime := env.clock w1.ticks }⟩,
            w1.ticks + 1, w1.invalidated⟩) ∧
      GithubUserRepository.Get
          ⟨w1.db.users, replaceRows w1.db.githubUsers
            { githubUser with userId := U.id, updateTime := env.clock w1.ticks }⟩ githubId =
        some { githubUser with userId := U.id, updateTime := env.clock w1.ticks }) := by
  refine ⟨?_, ?_, ?_, ?_⟩
  · intro h
    simp [UserService.resolveUser, h]
  · intro h
    simp [UserService.resolveUser, h]
  · intro user err w1 hres
    rw [Bind_of_unlinked env w githubId bindType username email password rePassword nickname
      githubUser hget hnot, hres]
    cases user <;> rfl
  · intro U w1 hres hok
    constructor
    · rw [Bind_of_unlinked env w githubId bindType username email password rePassword nickname
        githubUser hget hnot, hres]
      simp only [GithubUserRepository.Update, hok, replaceRows]
    · have hrows : w1.db.githubUsers = w.db.githubUsers := by
        have := resolveUser_githubUsers env w githubUser bindType username email password
          rePassword nickname
        rw [hres] at this
        exact this
      unfold GithubUserRepository.Get at hget ⊢
      rw [hrows]
      exact Get_replaceRows w.db.githubUsers githubId githubUser _ hget rfl

/-- C11 on the store that holds alice and the unlinked identity of bob: a login
bind with alice's credentials returns alice and links identity 10 to user 1
with the clock reading as update time; a login bind with a wrong password
returns the error of `SignIn`. -/
theorem Bind_resolves_and_links_witness :
    UserService.Bind sampleEnv aliceAndBobWorld 10 "login" "alice" "" "secret1" "" "" =
      (some aliceUser, none,
        ⟨⟨[aliceUser], [{ bobUnlinked with userId := 1, updateTime := 1700000000 }]⟩, 1, []⟩) ∧
    UserService.Bind sampleEnv aliceAndBobWorld 10 "login" "alice" "" "wrongpw" "" "" =
      (none, some (Error.new "密码错误"), aliceAndBobWorld) :=
  ⟨((Bind_resolves_and_links sampleEnv aliceAndBobWorld 10 "login" "alice" "" "secret1" "" ""
      bobUnlinked (by decide) (by decide)).2.2.2 aliceUser aliceAndBobWorld (by decide)
      (by decide)).1,
    (Bind_resolves_and_links sampleEnv aliceAndBobWorld 10 "login" "alice" "" "wrongpw" "" ""
      bobUnlinked (by decide) (by decide)).2.2.1 none (Error.new "密码错误") aliceAndBobWorld
      (by decide)⟩

/-! ## No mutation on a validation, not-found or conflict failure (C12) -/

/-- C12: for every input and store state, `SignIn` returns the world as it was
(whether it fails or not); `SignUp` failing at one of its nine checks returns
the world as it was; `Bind` failing because the identity is absent, because it
is already linked, because `SignIn` failed or because a `SignUp` check failed
returns that error, no user, and the world as it was: the same user and
identity rows and no new cache invalidation. In particular `Bind` on an absent
or already-linked identity creates no user whatever the other arguments are. -/
theorem failure_leaves_world_unchanged (env : Env) (w : World) (githubId : Int)
    (bindType username email password rePassword nickname avatar : String) :
    (UserService.SignIn env w username password).2.2 = w ∧
    (∀ err, SignUpSpec.firstFailure env w username email password rePassword nickname =
        some err →
      UserService.SignUp env w username email password rePassword nickname avatar =
        (none, some err, w)) ∧
    (GithubUserRepository.Get w.db githubId = none →
      UserService.Bind env w githubId bindType username email password rePassword nickname =
        (none, some (Error.new "Github账号未找到"), w)) ∧
    (∀ githubUser, GithubUserRepository.Get w.db githubId = some githubUser →
      githubUser.userId > 0 →
      UserService.Bind env w githubId bindType username email password rePassword nickname =
        (none, some (Error.new "Github账号已绑定了用户"), w)) ∧
    (∀ githubUser err, GithubUserRepository.Get w.db githubId = some githubUser →
      ¬ githubUser.userId > 0 → bindType = "login" →
      (UserService.SignIn env w username password).2.1 = some err →
      UserService.Bind env w githubId bindType username email password rePassword nickname =
        (none, some err, w)) ∧
    (∀ githubUser err, GithubUserRepository.Get w.db githubId = some githubUser →
      ¬ githubUser.userId > 0 → bindType ≠ "login" →
      SignUpSpec.firstFailure env w username email password rePassword nickname = some err →
      UserService.Bind env w githubId bindType username email password rePassword nickname =
        (none, some err, w)) := by
  refine ⟨SignIn_world env w username password, ?_, ?_, ?_, ?_, ?_⟩
  · intro err hff
    exact SignUp_of_check_fails env w username email password rePassword nickname avatar err hff
  · intro hget
    exact Bind_of_missing env w githubId bindType username email password rePassword nickname
      hget
  · intro githubUser hget hlinked
    exact Bind_of_linked env w githubId bindType username email password rePassword nickname
      githubUser hget hlinked
  · intro githubUser err hget hnot hlogin herr
    rw [Bind_of_unlinked env w githubId bindType username email password rePassword nickname
      githubUser hget hnot]
    simp only [UserService.resolveUser, hlogin, if_true]
    rcases SignIn_result env w username password with ⟨e, h⟩ | ⟨user, h⟩
    · rw [h] at herr ⊢
      simp only [Option.some.injEq] at herr
      rw [herr]
    · rw [h] at herr
      simp at herr
  · intro githubUser err hget hnot hreg hff
    rw [Bind_of_unlinked env w githubId bindType username email password rePassword nickname
      githubUser hget hnot]
    simp only [UserService.resolveUser, hreg, if_false]
    rw [SignUp_of_check_fails env w username email password rePassword nickname
      githubUser.avatarUrl err hff]

/-- C12 on concrete stores: with valid registration arguments, `Bind` on the
absent identity 99 and on the linked identity 10 fails and returns the world it
was given; a login bind with a wrong password and a registration bind with a
taken username do the same on the unlinked identity. -/
theorem failure_leaves_world_unchanged_witness :
    UserService.Bind sampleEnv linkedWorld 99 "register" "carol" "c@d.com" "secret1" "secret1"
        "Carol" = (none, some (Error.new "Github账号未找到"), linkedWorld) ∧
    UserService.Bind sampleEnv linkedWorld 10 "register" "carol" "c@d.com" "secret1" "secret1"
        "Carol" = (none, some (Error.new "Github账号已绑定了用户"), linkedWorld) ∧
    UserService.Bind sampleEnv aliceAndBobWorld 10 "login" "alice" "" "wrongpw" "" "" =
      (none, some (Error.new "密码错误"), aliceAndBobWorld) ∧
    UserService.Bind sampleEnv aliceAndBobWorld 10 "register" "alice" "c@d.com" "secret1"
        "secret1" "Carol" =
      (none, some (Error.new "用户名：alice 已被占用"), aliceAndBobWorld) :=
  ⟨(failure_leaves_world_unchanged sampleEnv linkedWorld 99 "register" "carol" "c@d.com"
      "secret1" "secret1" "Carol" "").2.2.1 (by decide),
    (failure_leaves_world_unchanged sampleEnv linkedWorld 10 "register" "carol" "c@d.com"
      "secret1" "secret1" "Carol" "").2.2.2.1 bobLinkedToAlice (by decide) (by decide),
    (failure_leaves_world_unchanged sampleEnv aliceAndBobWorld 10 "login" "alice" "" "wrongpw"
      "" "" "").2.2.2.2.1 bobUnlinked (Error.new "密码错误") (by decide) (by decide) rfl
      (by decide),
    (failure_leaves_world_unchanged sampleEnv aliceAndBobWorld 10 "register" "alice" "c@d.com"
      "secret1" "secret1" "Carol" "").2.2.2.2.2 bobUnlinked
      (Error.new "用户名：alice 已被占用") (by decide) (by decide) (by decide) (by decide)⟩

/-! ## The delegating writes invalidate the cache once (C13) -/

/-- C13: for every user, user id, column mapping and behaviour of the
repository, each of `Update`, `Updates`, `UpdateColumn` and `Delete` leaves the
store the repository call produced and records exactly one cache invalidation
on top of the earlier ones, for the id of the user it was called on: the id
argument for `Updates`, `UpdateColumn` and `Delete`, and for `Update` the id the
record carries when the repository call has returned, which is the id it was
passed with whenever the repository leaves the id alone. The three writing
operations return the repository's error unchanged. -/
theorem writes_invalidate_once (repo : UserWrites) (w : World) (t : User) (id : Int)
    (columns : List (String × Value)) (name : String) (value : Value) :
    UserService.Update repo w t =
      ((repo.Update w.db t).2.2,
        ⟨(repo.Update w.db t).1, w.ticks, (repo.Update w.db t).2.1.id :: w.invalidated⟩) ∧
    ((repo.Update w.db t).2.1.id = t.id →
      (UserService.Update repo w t).2.invalidated = t.id :: w.invalidated) ∧
    UserService.Updates repo w id columns =
      ((repo.Updates w.db id columns).2,
        ⟨(repo.Updates w.db id columns).1, w.ticks, id :: w.invalidated⟩) ∧
    UserService.UpdateColumn repo w id name value =
      ((repo.UpdateColumn w.db id name value).2,
        ⟨(repo.UpdateColumn w.db id name value).1, w.ticks, id :: w.invalidated⟩) ∧
    UserService.Delete repo w id = ⟨repo.Delete w.db id, w.ticks, id :: w.invalidated⟩ ∧
    (UserService.Updates repo w id columns).2.invalidated.length = w.invalidated.length + 1 ∧
    (UserService.Updates repo w id []).2.invalidated = id :: w.invalidated := by
  refine ⟨rfl, ?_, rfl, rfl, rfl, ?_, rfl⟩
  · intro hid
    simp [UserService.Update, cache.UserCache.Invalidate, hid]
  · simp [UserService.Updates, cache.UserCache.Invalidate]

/-- C13 with the example repository, on the store that holds alice: an update
of alice invalidates user 1 once; an update of a record with a blank id, which
the repository stores under id 2, invalidates user 2 once; a refused update of
two columns of user 1 returns the repository's error and invalidates user 1
once; a delete of user 1 invalidates user 1 once. -/
theorem writes_invalidate_once_witness :
    UserService.Update sampleWrites (worldWith aliceUser) { aliceUser with nickname := "Al" } =
      (none, ⟨⟨[{ aliceUser with nickname := "Al" }], []⟩, 2, [1]⟩) ∧
    UserService.Update sampleWrites (worldWith aliceUser) { carolUser with id := 0 } =
      (none, ⟨⟨[aliceUser, carolUser], []⟩, 2, [2]⟩) ∧
    UserService.Updates sampleWrites (worldWith aliceUser) 1
        [("nickname", Value.str "Al"), ("status", Value.int 1)] =
      (some (Error.repo "read only"), ⟨⟨[aliceUser], []⟩, 2, [1]⟩) ∧
    UserService.Delete sampleWrites (worldWith aliceUser) 1 = ⟨⟨[], []⟩, 2, [1]⟩ :=
  ⟨(writes_invalidate_once sampleWrites (worldWith aliceUser) { aliceUser with nickname := "Al" }
      1 [] "" (Value.int 0)).1.trans (by decide),
    (writes_invalidate_once sampleWrites (worldWith aliceUser) { carolUser with id := 0 } 1 [] ""
      (Value.int 0)).1.trans (by decide),
    (writes_invalidate_once sampleWrites (worldWith aliceUser) aliceUser 1
      [("nickname", Value.str "Al"), ("status", Value.int 1)] "" (Value.int 0)).2.2.1,
    (writes_invalidate_once sampleWrites (worldWith aliceUser) aliceUser 1 [] ""
      (Value.int 0)).2.2.2.2.1⟩

/-! ## Bind: the defensive guard (C14) -/

/-- A text built around a name, whose fixed parts alone have more than four
runes, is not the four-rune text of the unknown error. -/
theorem labelled_ne_unknown (label s note : String) (hlong : 4 < label.length + note.length) :
    label ++ s ++ note ≠ "未知异常" := by
  intro h
  have hlen := congrArg String.length h
  rw [String.length_append, String.length_append] at hlen
  have h4 : ("未知异常" : String).length = 4 := by decide
  rw [h4] at hlen
  omega

/-- No error of `SignIn` is the unknown error. -/
theorem SignIn_error_ne_unknown (env : Env) (w : World) (username password : String) :
    (UserService.SignIn env w username password).2.1 ≠ some (Error.new "未知异常") := by
  by_cases h1 : username = ""
  · simp [UserService.SignIn, lenIsZero_eq, h1]
  by_cases h2 : password = ""
  · simp [UserService.SignIn, lenIsZero_eq, h1, h2]
  cases hl : signInLookup env w username with
  | none =>
    simp only [signInLookup] at hl
    simp [UserService.SignIn, lenIsZero_eq, h1, h2, UserService.GetByEmail,
      UserService.GetByUsername, hl]
  | some user =>
    simp only [signInLookup] at hl
    cases hv : env.ValidatePassword user.password password <;>
      simp [UserService.SignIn, lenIsZero_eq, h1, h2, UserService.GetByEmail,
        UserService.GetByUsername, hl, hv]

/-- No error of `SignUp` is the unknown error. -/
theorem SignUp_error_ne_unknown (env : Env) (w : World)
    (username email password rePassword nickname avatar : String) :
    (UserService.SignUp env w username email password rePassword nickname avatar).2.1 ≠
      some (Error.new "未知异常") := by
  cases hff : SignUpSpec.firstFailure env w username email password rePassword nickname with
  | some err =>
    rw [SignUp_of_check_fails env w username email password rePassword nickname avatar err hff]
    simp only [ne_eq, Option.some.injEq]
    unfold SignUpSpec.firstFailure at hff
    obtain ⟨c, hc, hce⟩ := Option.map_eq_some'.1 hff
    have hmem := List.mem_of_find?_eq_some hc
    rw [← hce]
    simp only [SignUpSpec.checks, List.mem_cons, List.mem_singleton, List.not_mem_nil,
      or_false] at hmem
    rcases hmem with h | h | h | h | h | h | h | h | h <;> rw [h] <;>
      simp only [Error.new.injEq]
    · decide
    · decide
    · decide
    · decide
    · decide
    · decide
    · decide
    · exact labelled_ne_unknown _ _ _ (by decide)
    · exact labelled_ne_unknown _ _ _ (by decide)
  | none =>
    rw [SignUp_of_checks_pass env w username email password rePassword nickname avatar hff]
    cases env.createFault w.db (signUpRecord env w username email password nickname avatar) <;>
      simp

/-- C14: for every input and store state `Bind` never returns the unknown
error of its defensive guard, because neither `SignIn` nor `SignUp` ever
returns an absent user together with no error. -/
theorem Bind_guard_unreachable (env : Env) (w : World) (githubId : Int)
    (bindType username email password rePassword nickname avatar : String) :
    (UserService.Bind env w githubId bindType username email password rePassword nickname).2.1 ≠
      some (Error.new "未知异常") ∧
    (∀ w1, UserService.SignIn env w username password ≠ (none, none, w1)) ∧
    (∀ w1, UserService.SignUp env w username email password rePassword nickname avatar ≠
      (none, none, w1)) := by
  refine ⟨?_, ?_, ?_⟩
  · cases hget : GithubUserRepository.Get w.db githubId with
    | none =>
      rw [Bind_of_missing env w githubId bindType username email password rePassword nickname
        hget]
      simp only [ne_eq, Option.some.injEq, Error.new.injEq]
      decide
    | some githubUser =>
      by_cases hlinked : githubUser.userId > 0
      · rw [Bind_of_linked env w githubId bindType username email password rePassword nickname
          githubUser hget hlinked]
        simp only [ne_eq, Option.some.injEq, Error.new.injEq]
        decide
      · rw [Bind_of_unlinked env w githubId bindType username email password rePassword
          nickname githubUser hget hlinked]
        have hne : (UserService.resolveUser env w githubUser bindType username email password
            rePassword nickname).2.1 ≠ some (Error.new "未知异常") := by
          unfold UserService.resolveUser
          split
          · exact SignIn_error_ne_unknown env w username password
          · exact SignUp_error_ne_unknown env w username email password rePassword nickname _
        have hcases : (∃ err w1, UserService.resolveUser env w githubUser bindType username
              email password rePassword nickname = (none, some err, w1)) ∨
            (∃ user w1, UserService.resolveUser env w githubUser bindType username email
              password rePassword nickname = (some user, none, w1)) := by
          unfold UserService.resolveUser
          split
          · rcases SignIn_result env w username password with ⟨e, h⟩ | ⟨u, h⟩
            · exact Or.inl ⟨e, w, h⟩
            · exact Or.inr ⟨u, w, h⟩
          · exact (SignUp_result env w username email password rePassword nickname _).1
        rcases hcases with ⟨err, w1, h⟩ | ⟨user, w1, h⟩
        · rw [h] at hne ⊢
          exact hne
        · rw [h]
          simp only [GithubUserRepository.Update]
          cases env.githubUpdateFault w1.db
            { githubUser with userId := user.id, updateTime := env.clock w1.ticks } <;> simp
  · intro w1 h
    rcases SignIn_result env w username password with ⟨e, h2⟩ | ⟨u, h2⟩ <;>
      rw [h2] at h <;> simp at h
  · intro w1 h
    rcases (SignUp_result env w username email password rePassword nickname avatar).1 with
      ⟨e, w2, h2⟩ | ⟨u, w2, h2⟩ <;> rw [h2] at h <;> simp at h

/-! ## Bind is not atomic (C15) -/

/-- C15: on a registration bind of an unlinked identity, whenever `SignUp`
succeeds with user U and the identity `Update` then fails, `Bind` returns the
store's error together with the created user U; the store after the call
holds U as a new user row, and the identity is stored as before, still
unlinked. -/
theorem Bind_not_atomic (env : Env) (w w1 : World) (githubId : Int)
    (bindType username email password rePassword nickname cause : String)
    (githubUser : GithubUser) (U : User)
    (hget : GithubUserRepository.Get w.db githubId = some githubUser)
    (hnot : ¬ githubUser.userId > 0)
    (hreg : bindType ≠ "login")
    (hup : UserService.SignUp env w username email password rePassword nickname
      githubUser.avatarUrl = (some U, none, w1))
    (hfail : env.githubUpdateFault w1.db
      { githubUser with userId := U.id, updateTime := env.clock w1.ticks } = some cause) :
    UserService.Bind env w githubId bindType username email password rePassword nickname =
      (some U, some (Error.repo cause), ⟨w1.db, w1.ticks + 1, w1.invalidated⟩) ∧
    w1.db.users = w.db.users ++ [U] ∧ U ∉ w.db.users ∧
    GithubUserRepository.Get w1.db githubId = some githubUser := by
  obtain ⟨-, hU, hw⟩ := SignUp_success_inv env w w1 username email password rePassword nickname
    githubUser.avatarUrl U hup
  refine ⟨?_, ?_, ?_, ?_⟩
  · rw [Bind_of_unlinked env w githubId bindType username email password rePassword nickname
      githubUser hget hnot]
    simp only [UserService.resolveUser, hreg, if_false, hup, GithubUserRepository.Update, hfail]
  · rw [hw]
  · intro hmem
    have hle := le_maxId w.db.users U hmem
    rw [hU] at hle
    simp only at hle
    omega
  · rw [hw]
    exact hget

/-- C15 on the store that holds alice and the unlinked identity of bob, with a
store whose identity `Update` fails: the registration bind of carol returns
the error together with carol, carol is now a user row, and identity 10 is
still unlinked. -/
theorem Bind_not_atomic_witness :
    UserService.Bind brokenUpdateEnv aliceAndBobWorld 10 "register" "carol" "c@d.com" "secret1"
        "secret1" "Carol" =
      (some carolUser, some (Error.repo "timeout"),
        ⟨⟨[aliceUser, carolUser], [bobUnlinked]⟩, 3, []⟩) :=
  (Bind_not_atomic brokenUpdateEnv aliceAndBobWorld ⟨⟨[aliceUser, carolUser], [bobUnlinked]⟩, 2, []⟩
    10 "register" "carol" "c@d.com" "secret1" "secret1" "Carol" "timeout" bobUnlinked carolUser
    (by decide) (by decide) (by decide) (by decide) (by decide)).1

/-! ## Sign-in by Github: the caller's identity value is not updated (C16) -/

/-- C16: for every successful call of `SignInByGithub` on an identity value g
with `g.userId = 0`, in a store that has no user with id 0, a second call with
the same unchanged value g creates no user, changes nothing, and fails with the
username-conflict error instead of returning the user the first call created;
the first call did create that user, under g's login. -/
theorem SignInByGithub_stale_value_conflicts (env : Env) (w w1 : World) (g : GithubUser)
    (U : User)
    (hunlinked : g.userId = 0)
    (hzero : UserRepository.Get w.db 0 = none)
    (hfirst : UserService.SignInByGithub env w g = (some U, none, w1)) :
    UserService.SignInByGithub env w1 g =
      (none, some (CodeError.NewError env.ErrorCodeUserNameExists "用户名已存在"), w1) ∧
    w1.db.users = w.db.users ++ [U] ∧ U.username = g.login := by
  have h0 : UserRepository.Get w.db g.userId = none := by rw [hunlinked]; exact hzero
  cases hn : UserRepository.GetByUsername w.db g.login with
  | some other =>
    rw [SignInByGithub_of_taken env w g other h0 hn] at hfirst
    simp at hfirst
  | none =>
    rw [SignInByGithub_of_free env w g h0 hn] at hfirst
    cases hc : env.createFault w.db
        (UserService.githubNewUser g (env.clock w.ticks) (env.clock (w.ticks + 1))) with
    | some cause => rw [hc] at hfirst; simp at hfirst
    | none =>
      rw [hc] at hfirst
      simp only at hfirst
      cases hu : env.githubUpdateColumnFault
          ⟨w.db.users ++ [githubCreated env w g], w.db.githubUsers⟩ g.id "user_id"
          (maxId w.db.users + 1) with
      | some cause => rw [hu] at hfirst; simp at hfirst
      | none =>
        rw [hu] at hfirst
        simp only [Prod.mk.injEq, Option.some.injEq, true_and] at hfirst
        obtain ⟨hU, hw⟩ := hfirst
        subst hU hw
        refine ⟨?_, rfl, rfl⟩
        apply SignInByGithub_of_taken env _ g (githubCreated env w g)
        · rw [hunlinked]
          unfold UserRepository.Get at hzero ⊢
          simp only
          rw [List.find?_append, hzero]
          have hpos := maxId_nonneg w.db.users
          have hne : ¬ (maxId w.db.users + 1 = 0) := by omega
          simp [githubCreated, hne]
        · unfold UserRepository.GetByUsername at hn ⊢
          exact find?_append_new _ _ _ hn (by simp [githubCreated, UserService.githubNewUser])

/-- C16 on the store that holds alice and the unlinked identity of bob: the
first call registers bob, the second call with the same identity value fails
with the conflict error and changes nothing. -/
theorem SignInByGithub_stale_value_conflicts_witness :
    UserService.SignInByGithub sampleEnv
        (UserService.SignInByGithub sampleEnv aliceAndBobWorld bobUnlinked).2.2 bobUnlinked =
      (none, some (CodeError.NewError 10 "用户名已存在"),
        (UserService.SignInByGithub sampleEnv aliceAndBobWorld bobUnlinked).2.2) :=
  (SignInByGithub_stale_value_conflicts sampleEnv aliceAndBobWorld
    (UserService.SignInByGithub sampleEnv aliceAndBobWorld bobUnlinked).2.2 bobUnlinked
    (githubCreated sampleEnv aliceAndBobWorld bobUnlinked) (by decide) (by decide)
    (by decide)).1

end services
